import Mathlib

/-!
# Verification of the pixelate image pipeline and PNG metadata codec

Shallow embedding, in Lean 4, of the algorithmic core of the `pixelate`
repository (image transform pipeline in `src/modules/ImageProcessor.js`,
PNG chunk codec and Stable-Diffusion parameter parser in `src/main-old.js`),
together with theorems settling the specification's claims about it.

Modelling conventions:
* JavaScript byte arrays (`Uint8Array`, `Uint8ClampedArray`) are `List Nat`
  whose entries are intended to be `< 256`; reading out of bounds yields 0
  (JS `undefined` coerced to 0 by the numeric contexts in which it is used).
* JavaScript strings are lists of UTF-16 code units (`List Nat`) in the
  binary codec, and Lean `String`s in the text parser (whose claimed inputs
  are ASCII, where the two notions of character coincide).
* 32-bit integer arithmetic (`>>>`, `^`, `&`) is `Nat` arithmetic with
  explicit `% 2 ^ 32` / division where overflow or truncation matters;
  JavaScript's *signed* 32-bit reads (`<<`/`|`) are modelled on `Int`.
* Floating-point ratios (`srcW / destW`, `255 / (levels - 1)`) are modelled
  as exact rationals `ℚ`; float rounding error is outside the model.
* Fallible code (`throw` / `try-catch`) returns `Except` / `Option`.
-/

namespace Pixelate

/-! ## CRC32 (`calculateCRC32`, main-old.js lines 1320-1338) -/

/-- One bit step of the CRC table construction:
`c = (c & 1) ? (0xEDB88320 ^ (c >>> 1)) : (c >>> 1)`. -/
def crcBitStep (c : Nat) : Nat :=
  if c % 2 = 1 then Nat.xor 0xEDB88320 (c / 2) else c / 2

/-- One entry of the 256-entry CRC table: the inner `j`-loop, 8 bit steps
starting from the table index `i`. -/
def crcTableEntry (i : Nat) : Nat :=
  crcBitStep (crcBitStep (crcBitStep (crcBitStep
    (crcBitStep (crcBitStep (crcBitStep (crcBitStep i)))))))

/-- The 256-entry CRC table `this.crcTable`, built once and cached. -/
def crcTable : List Nat := (List.range 256).map crcTableEntry

/-- The CRC accumulation loop over the data bytes:
`crc = this.crcTable[(crc ^ data[i]) & 0xFF] ^ (crc >>> 8)`. -/
def crcFold (table : List Nat) (crc : Nat) : List Nat → Nat
  | [] => crc
  | b :: rest =>
      crcFold table (Nat.xor (table.getD (Nat.xor crc b % 256) 0) (crc / 256)) rest

/-- `calculateCRC32(data)` from main-old.js: initial register `0xFFFFFFFF`,
table-driven byte loop, final XOR with `0xFFFFFFFF`
(`(crc ^ 0xFFFFFFFF) >>> 0`, an unsigned 32-bit result). -/
def calculateCRC32 (data : List Nat) : Nat :=
  Nat.xor (crcFold crcTable 0xFFFFFFFF data) 0xFFFFFFFF

/-- `calculateCRC32` together with the `this.crcTable` cache state: if the
cache is empty the table is built, otherwise the cached table is used; the
call returns the result and the table left in the cache. -/
def calculateCRC32Run (cache : Option (List Nat)) (data : List Nat) :
    Nat × List Nat :=
  let table := cache.getD crcTable
  (Nat.xor (crcFold table 0xFFFFFFFF data) 0xFFFFFFFF, table)

/-- Reference CRC-32, written from the specification's words: a 256-entry
table built from polynomial `0xEDB88320` (8 reflected bit steps per entry),
initial register `0xFFFFFFFF`, final XOR `0xFFFFFFFF`. -/
def crcRefTable (b : Nat) : Nat :=
  Nat.iterate (fun c => if c % 2 = 1 then Nat.xor 0xEDB88320 (c / 2) else c / 2) 8 b

/-- Reference CRC-32 over a byte sequence, from the specification's words. -/
def crc32Ref (data : List Nat) : Nat :=
  Nat.xor
    (data.foldl (fun crc b => Nat.xor (crcRefTable (Nat.xor crc b % 256)) (crc / 256))
      0xFFFFFFFF)
    0xFFFFFFFF

lemma crcTable_getD {i : Nat} (h : i < 256) :
    crcTable.getD i 0 = crcTableEntry i := by
  simp [crcTable, List.getD_eq_getElem?_getD, List.getElem?_map, List.getElem?_range, h]

lemma crcTableEntry_eq_ref (i : Nat) : crcTableEntry i = crcRefTable i := by
  simp [crcTableEntry, crcRefTable, Nat.iterate, crcBitStep]

lemma crcFold_eq_ref (data : List Nat) :
    ∀ crc : Nat,
      crcFold crcTable crc data =
        data.foldl (fun crc b => Nat.xor (crcRefTable (Nat.xor crc b % 256)) (crc / 256)) crc := by
  induction data with
  | nil => intro crc; rfl
  | cons b rest ih =>
      intro crc
      have hlt : Nat.xor crc b % 256 < 256 := Nat.mod_lt _ (by norm_num)
      simp only [crcFold, List.foldl_cons, crcTable_getD hlt, crcTableEntry_eq_ref]
      exact ih _

lemma crcTableEntry_lt (i : Nat) (h : i < 2 ^ 32) : crcTableEntry i < 2 ^ 32 := by
  have step : ∀ c : Nat, c < 2 ^ 32 → crcBitStep c < 2 ^ 32 := by
    intro c hc
    unfold crcBitStep
    have hdiv : c / 2 < 2 ^ 32 := lt_of_le_of_lt (Nat.div_le_self _ _) hc
    by_cases hodd : c % 2 = 1
    · simp only [hodd, if_pos rfl]
      exact Nat.xor_lt_two_pow (by norm_num) hdiv
    · simpa [hodd] using hdiv
  unfold crcTableEntry
  exact step _ (step _ (step _ (step _ (step _ (step _ (step _ (step _ h)))))))

lemma crcFold_lt (data : List Nat) :
    ∀ crc : Nat, crc < 2 ^ 32 → crcFold crcTable crc data < 2 ^ 32 := by
  induction data with
  | nil => intro crc h; exact h
  | cons b rest ih =>
      intro crc h
      apply ih
      have hlt : Nat.xor crc b % 256 < 256 := Nat.mod_lt _ (by norm_num)
      rw [crcTable_getD hlt]
      exact Nat.xor_lt_two_pow (crcTableEntry_lt _ (lt_of_lt_of_le hlt (by norm_num)))
        (lt_of_le_of_lt (Nat.div_le_self _ _) h)

/-- C2: `calculateCRC32` agrees with the standard reflected CRC-32 reference
definition (table from polynomial `0xEDB88320`, initial register
`0xFFFFFFFF`, final XOR `0xFFFFFFFF`, as written from the spec's words) on
every input; its result is always an unsigned 32-bit value; the CRC of the
empty byte sequence is 0; the CRC of the 4 bytes `"tEXt"` is the fixed
value `0x9642C585`; and the result does not depend on whether the table
cache was already primed (determinism across repeated calls). -/
theorem crc32_matches_standard_reference :
    (∀ data : List Nat, calculateCRC32 data = crc32Ref data) ∧
    (∀ data : List Nat, calculateCRC32 data < 2 ^ 32) ∧
    calculateCRC32 [] = 0 ∧
    calculateCRC32 [0x74, 0x45, 0x58, 0x74] = 0x9642C585 ∧
    (∀ data : List Nat, ∀ cache : Option (List Nat),
      (calculateCRC32Run cache data).2 = crcTable →
        (calculateCRC32Run cache data).1 = calculateCRC32 data) ∧
    (∀ data : List Nat, calculateCRC32Run none data = calculateCRC32Run (some crcTable) data) := by
  refine ⟨fun data => ?_, fun data => ?_, by decide, by decide, ?_, fun data => rfl⟩
  · unfold calculateCRC32 crc32Ref
    rw [crcFold_eq_ref]
  · unfold calculateCRC32
    exact Nat.xor_lt_two_pow (crcFold_lt data _ (by norm_num)) (by norm_num)
  · intro data cache htab
    unfold calculateCRC32Run at htab ⊢
    unfold calculateCRC32
    simp only at htab ⊢
    rw [htab]

/-! ## PNG chunk codec (main-old.js lines 982-1313)

JavaScript `Uint8Array` values are `List Nat` of bytes.  Array reads out of
bounds give `undefined`, which every numeric context here coerces to 0;
`TypedArray.slice` clamps its (possibly negative) arguments; `<<` / `|`
produce signed 32-bit values.  These JS semantics are modelled explicitly. -/

/-- The PNG signature `89 50 4E 47 0D 0A 1A 0A`. -/
def pngSignature : List Nat := [0x89, 0x50, 0x4E, 0x47, 0x0D, 0x0A, 0x1A, 0x0A]

/-- A PNG chunk as the codec represents it: `type` is the list of UTF-16
code units of the JS type string, `data` and `crc` are byte lists, and
`length` is the JS number stored in the `length` field (an `Int`, because
`parsePNGChunks` computes it with signed 32-bit arithmetic). -/
structure PngChunk where
  type : List Nat
  data : List Nat
  crc : List Nat
  length : Int
  deriving Repr, DecidableEq, Inhabited

/-- `stringToLatin1Bytes`: each code unit ≤ 255 passes through, anything
larger becomes `?` (63). -/
def stringToLatin1Bytes (s : List Nat) : List Nat :=
  s.map (fun c => if c ≤ 255 then c else 63)

/-- Reading `data[i]` in a numeric context: out-of-range (including
negative) indices give `undefined`, coerced to 0. -/
def jsByteAt (data : List Nat) (i : Int) : Nat :=
  if i < 0 then 0 else data.getD i.toNat 0

/-- `Uint8Array.prototype.slice(a, b)`: negative indices count from the
end, both are clamped to `[0, length]`. -/
def jsSlice (data : List Nat) (a b : Int) : List Nat :=
  let len := data.length
  let lo := if a < 0 then ((len : Int) + a).toNat else min a.toNat len
  let hi := if b < 0 then ((len : Int) + b).toNat else min b.toNat len
  (data.drop lo).take (hi - lo)

/-- Signed 32-bit reinterpretation of a value already reduced `% 2^32`:
the result of a JS `<<`/`|` chain. -/
def toInt32 (n : Nat) : Int :=
  let m : Nat := n % 2 ^ 32
  if m < 2 ^ 31 then (m : Int) else (m : Int) - 2 ^ 32

/-- The chunk length read of `parsePNGChunks`:
`(data[o] << 24) | (data[o+1] << 16) | (data[o+2] << 8) | data[o+3]`,
a *signed* 32-bit value. -/
def readInt32BE (data : List Nat) (off : Int) : Int :=
  toInt32 (jsByteAt data off * 2 ^ 24 + jsByteAt data (off + 1) * 2 ^ 16 +
    jsByteAt data (off + 2) * 2 ^ 8 + jsByteAt data (off + 3))

/-- Two's-complement reinterpretation of a JS number as unsigned 32-bit
(the effect of `>>> 0` / of extracting bytes with `>>>`). -/
def toUint32 (n : Int) : Nat := (n % (2 ^ 32 : Int)).toNat

/-- Big-endian 4-byte encoding `[(n >>> 24) & 0xFF, ..., n & 0xFF]` of an
unsigned 32-bit value. -/
def be32 (n : Nat) : List Nat :=
  [n / 2 ^ 24 % 256, n / 2 ^ 16 % 256, n / 2 ^ 8 % 256, n % 256]

/-- The body of the `while (offset < data.length)` loop of
`parsePNGChunks`, with an explicit fuel bound on the number of iterations
(the loop advances by `12 + length` bytes per iteration; on byte input it
can run at most `data.length + 1` times before `offset` leaves `[0,
data.length)`, which is the fuel `parsePNGChunks` supplies). -/
def parsePNGChunksGo (data : List Nat) : Nat → Int → List PngChunk
  | 0, _ => []
  | fuel + 1, off =>
    if off < (data.length : Int) then
      if off + 8 > (data.length : Int) then []
      else
        let length := readInt32BE data off
        let ctype := [jsByteAt data (off + 4), jsByteAt data (off + 5),
          jsByteAt data (off + 6), jsByteAt data (off + 7)]
        let chunkData := jsSlice data (off + 8) (off + 8 + length)
        let crc := jsSlice data (off + 8 + length) (off + 12 + length)
        { type := ctype, data := chunkData, crc := crc, length := length } ::
          parsePNGChunksGo data fuel (off + 12 + length)
    else []

/-- `parsePNGChunks(data)`: iterate chunks starting after the 8-byte
signature. -/
def parsePNGChunks (data : List Nat) : List PngChunk :=
  parsePNGChunksGo data (data.length + 1) 8

/-- `result.set(vals, off)` on a `Uint8Array` (in-bounds writes; an
out-of-bounds or negative-offset `set` throws in JS and never occurs in
the flows modelled here). -/
def jsSetBytes (arr : List Nat) (off : Int) (vals : List Nat) : List Nat :=
  arr.take off.toNat ++ vals ++ arr.drop (off.toNat + vals.length)

/-- One iteration of the chunk-writing loop of `buildPNG`: write the
4-byte big-endian length, the 4 Latin-1 type bytes, the data, and the crc,
advancing the offset by 4, 4, `chunk.length` and 4. -/
def buildChunkWrite (st : List Nat × Int) (c : PngChunk) : List Nat × Int :=
  let arr₁ := jsSetBytes st.1 st.2 (be32 (toUint32 c.length))
  let off₁ := st.2 + 4
  let arr₂ := jsSetBytes arr₁ off₁ (stringToLatin1Bytes c.type)
  let off₂ := off₁ + 4
  let arr₃ := jsSetBytes arr₂ off₂ c.data
  let off₃ := off₂ + c.length
  let arr₄ := jsSetBytes arr₃ off₃ c.crc
  (arr₄, off₃ + 4)

/-- `buildPNG(chunks)`: allocate `8 + Σ (12 + length)` zeroed bytes, write
the signature, then write each chunk in order. -/
def buildPNG (chunks : List PngChunk) : List Nat :=
  let totalSize : Int := chunks.foldl (fun s c => s + 12 + c.length) 8
  let arr := List.replicate totalSize.toNat 0
  let arr := jsSetBytes arr 0 pngSignature
  (chunks.foldl buildChunkWrite (arr, 8)).1

/-- `isPNG(data)`: at least 8 bytes and the first 8 match the signature. -/
def isPNG (data : List Nat) : Bool :=
  if data.length < 8 then false
  else decide (data.take 8 = pngSignature)

/-- The UTF-16 code units of the string `'tEXt'`. -/
def tEXtType : List Nat := [0x74, 0x45, 0x58, 0x74]

/-- The UTF-16 code units of the string `'IEND'`. -/
def iendType : List Nat := [0x49, 0x45, 0x4E, 0x44]

/-- `createTextChunk(keyword, text)` (main-old.js lines 1211-1252): `null`
when the keyword is empty or longer than 79 code units; otherwise a `tEXt`
chunk whose data is `keyword ⧺ 0 ⧺ text` (Latin-1 encoded) and whose crc
is the 4-byte big-endian CRC32 of type ⧺ data.  Nothing in the `try` body
can throw, so the `catch` branch is unreachable. -/
def createTextChunk (keyword text : List Nat) : Option PngChunk :=
  if keyword.length = 0 ∨ keyword.length > 79 then none
  else
    let keywordBytes := stringToLatin1Bytes keyword
    let textBytes := stringToLatin1Bytes text
    let chunkData := keywordBytes ++ [0] ++ textBytes
    let typeBytes := stringToLatin1Bytes tEXtType
    let crc := calculateCRC32 (typeBytes ++ chunkData)
    some { type := tEXtType, data := chunkData, crc := be32 crc,
           length := chunkData.length }

/-- The splice-before-IEND step of `addMetadataToPNG` (main-old.js lines
1040-1048, the codec operation the spec calls `insertBeforeIEND`): find
the first `IEND` chunk, throw a structural error if there is none,
otherwise `chunks.splice(iendIndex, 0, ...newChunks)`. -/
def insertChunksBeforeIEND (chunks newChunks : List PngChunk) :
    Except String (List PngChunk) :=
  match chunks.findIdx? (fun c => c.type = iendType) with
  | none => .error "Invalid PNG: no IEND chunk found"
  | some i => .ok (chunks.take i ++ newChunks ++ chunks.drop i)

/-- `addMetadataToPNG(pngData, metadata)`: parse the chunks, splice the
metadata chunks before `IEND` (throwing if `IEND` is missing), rebuild.
The chunk list `createMetadataChunks(metadata)` computes from the metadata
object is abstracted as the parameter `metadataChunks`; every theorem
below quantifies over it. -/
def addMetadataToPNG (pngData : List Nat) (metadataChunks : List PngChunk) :
    Except String (List Nat) :=
  let chunks := parsePNGChunks pngData
  (insertChunksBeforeIEND chunks metadataChunks).map buildPNG

/-- `preserveMetadata(imageBlob, metadata)` (main-old.js lines 982-1010):
no metadata → return the blob; non-PNG blob → return the blob; any
exception inside the `try` (in this model, the structural error of
`addMetadataToPNG`) → caught, return the blob; otherwise the rebuilt PNG.
The metadata object is modelled by the chunk list it gives rise to
(`none` = absent metadata). -/
def preserveMetadata (imageBlob : List Nat)
    (metadata : Option (List PngChunk)) : List Nat :=
  match metadata with
  | none => imageBlob
  | some metadataChunks =>
    if isPNG imageBlob then
      match addMetadataToPNG imageBlob metadataChunks with
      | .ok png => png
      | .error _ => imageBlob
    else imageBlob

/-! ## Theorems about the metadata insertion flow (C4, C5, C6) -/

/-- The UTF-16 code units of the string `'IHDR'`. -/
def ihdrType : List Nat := [0x49, 0x48, 0x44, 0x52]

/-- C5: `insertChunksBeforeIEND` fails with the structural error when no
`IEND` chunk is present; when an `IEND` chunk is present (first one at
index `i`) the new chunks are spliced immediately before it: the result is
`take i ++ newChunks ++ drop i`, every chunk before the splice point is
not `IEND` and the chunk at the splice point is the first `IEND`, the
pre-existing chunks appear in the result in their original relative order
(sublist), and an `IHDR` chunk that was first stays first. -/
theorem insertBeforeIEND_splices_before_first_IEND :
    (∀ chunks newChunks : List PngChunk,
      (∀ c ∈ chunks, c.type ≠ iendType) →
        insertChunksBeforeIEND chunks newChunks =
          .error "Invalid PNG: no IEND chunk found") ∧
    (∀ chunks newChunks : List PngChunk, ∀ i : Nat,
      chunks.findIdx? (fun c => c.type = iendType) = some i →
        insertChunksBeforeIEND chunks newChunks =
          .ok (chunks.take i ++ newChunks ++ chunks.drop i) ∧
        (∃ h : i < chunks.length, (chunks.get ⟨i, h⟩).type = iendType ∧
          ∀ j, ∀ hj : j < i,
            (chunks.get ⟨j, Nat.lt_trans hj h⟩).type ≠ iendType) ∧
        chunks.Sublist (chunks.take i ++ newChunks ++ chunks.drop i) ∧
        (∀ c0 : PngChunk, chunks.head? = some c0 → c0.type = ihdrType →
          (chunks.take i ++ newChunks ++ chunks.drop i).head? = some c0)) := by
  constructor
  · intro chunks newChunks hno
    have hfind : chunks.findIdx? (fun c => decide (c.type = iendType)) = none := by
      rw [List.findIdx?_eq_none_iff]
      intro c hc
      simpa using hno c hc
    simp [insertChunksBeforeIEND, hfind]
  · intro chunks newChunks i hfind
    have hfind' := hfind
    rw [List.findIdx?_eq_some_iff_getElem] at hfind'
    obtain ⟨hlen, hp, hbefore⟩ := hfind'
    refine ⟨by simp [insertChunksBeforeIEND, hfind], ⟨hlen, by simpa using hp, ?_⟩, ?_, ?_⟩
    · intro j hj
      have := hbefore j hj
      simpa using this
    · have h₁ : List.Sublist (chunks.drop i) (newChunks ++ chunks.drop i) :=
        List.sublist_append_right _ _
      have h₂ := h₁.append_left (chunks.take i)
      rw [List.take_append_drop] at h₂
      simpa [List.append_assoc] using h₂
    · intro c0 hhead hihdr
      have hne : i ≠ 0 := by
        intro h0
        subst h0
        cases chunks with
        | nil => simp at hhead
        | cons a l =>
          have ha : a = c0 := by simpa using hhead
          have htype : (a :: l)[0].type = iendType := of_decide_eq_true hp
          simp only [List.getElem_cons_zero] at htype
          rw [ha, hihdr] at htype
          exact absurd htype (by decide)
      cases chunks with
      | nil => simp at hhead
      | cons a l =>
        obtain ⟨i', rfl⟩ := Nat.exists_eq_succ_of_ne_zero hne
        have ha : a = c0 := by simpa using hhead
        simp [List.take_succ_cons, ha]

/-- C6: `createTextChunk` returns `null` exactly when the keyword length
is 0 or greater than 79; for a keyword of length 1 to 79 it returns a
`tEXt` chunk whose data is the Latin-1 keyword bytes, one zero separator
byte and the Latin-1 text bytes, with the crc computed over type ⧺ data
and the length field equal to the data length. -/
theorem createTextChunk_none_iff_bad_keyword :
    (∀ keyword text : List Nat,
      (createTextChunk keyword text = none ↔
        keyword.length = 0 ∨ keyword.length > 79)) ∧
    (∀ keyword text : List Nat,
      1 ≤ keyword.length → keyword.length ≤ 79 →
        ∃ ch : PngChunk, createTextChunk keyword text = some ch ∧
          ch.type = tEXtType ∧
          ch.data = stringToLatin1Bytes keyword ++ [0] ++ stringToLatin1Bytes text ∧
          ch.crc = be32 (calculateCRC32 (stringToLatin1Bytes tEXtType ++ ch.data)) ∧
          ch.length = (ch.data.length : Int)) := by
  constructor
  · intro keyword text
    unfold createTextChunk
    split
    · rename_i h
      exact iff_of_true rfl h
    · rename_i h
      exact iff_of_false (by simp) h
  · intro keyword text h1 h79
    have hcond : ¬ (keyword.length = 0 ∨ keyword.length > 79) := by omega
    refine ⟨{ type := tEXtType,
              data := stringToLatin1Bytes keyword ++ [0] ++ stringToLatin1Bytes text,
              crc := be32 (calculateCRC32 (stringToLatin1Bytes tEXtType ++
                (stringToLatin1Bytes keyword ++ [0] ++ stringToLatin1Bytes text))),
              length := ((stringToLatin1Bytes keyword ++ [0] ++
                stringToLatin1Bytes text).length : Int) },
            ?_, rfl, rfl, rfl, rfl⟩
    unfold createTextChunk
    rw [if_neg hcond]

/-- C4: `preserveMetadata` is a no-op on failure: for any input that does
not start with the 8-byte PNG signature it returns the input bytes
unchanged (for any metadata), and whenever the preservation flow raises
an error (the structural `addMetadataToPNG` error, the only throw site in
the model) the error is absorbed and the input bytes are returned
unchanged. -/
theorem preserveMetadata_returns_input_on_failure :
    (∀ blob : List Nat, ∀ metadata : Option (List PngChunk),
      blob.take 8 ≠ pngSignature → preserveMetadata blob metadata = blob) ∧
    (∀ blob : List Nat, ∀ metadataChunks : List PngChunk, ∀ e : String,
      addMetadataToPNG blob metadataChunks = .error e →
        preserveMetadata blob (some metadataChunks) = blob) := by
  constructor
  · intro blob metadata hsig
    have hpng : isPNG blob = false := by
      unfold isPNG
      split
      · rfl
      · simpa using hsig
    cases metadata with
    | none => rfl
    | some m => simp [preserveMetadata, hpng]
  · intro blob metadataChunks e herr
    unfold preserveMetadata
    cases hpng : isPNG blob with
    | false => simp
    | true => simp [herr]

/-! ## Round-trip of the chunk codec (C3) -/

/-- The byte run `buildPNG` emits for one chunk (once the sequential
writes are aligned, see `buildPNG_eq_concat`): 4-byte big-endian length,
4 Latin-1 type bytes, the data, the crc. -/
def encodeChunk (c : PngChunk) : List Nat :=
  be32 (toUint32 c.length) ++ stringToLatin1Bytes c.type ++ c.data ++ c.crc

/-- Concatenation of the per-chunk byte runs. -/
def encodeChunks : List PngChunk → List Nat
  | [] => []
  | c :: cs => encodeChunk c ++ encodeChunks cs

/-- The structural well-formedness `buildPNG`'s sequential writes rely on:
a 4-code-unit type, a 4-byte crc, and a `length` field equal to the data
length (so every write lands exactly where the offset advance says). -/
def BuildWF (c : PngChunk) : Prop :=
  c.type.length = 4 ∧ c.crc.length = 4 ∧ c.length = (c.data.length : Int)

instance : DecidablePred BuildWF := fun c => by unfold BuildWF; infer_instance

/-- Well-formedness for a parse–build round trip: additionally the type's
code units are Latin-1 (≤ 255, so the type survives `stringToLatin1Bytes`)
and the data is shorter than 2^31 (so the signed 32-bit length read of
`parsePNGChunks` is non-negative). -/
def RoundTripWF (c : PngChunk) : Prop :=
  BuildWF c ∧ (∀ t ∈ c.type, t ≤ 255) ∧ c.data.length < 2 ^ 31

instance : DecidablePred RoundTripWF := fun c => by unfold RoundTripWF; infer_instance

lemma length_encodeChunk (c : PngChunk) (h : BuildWF c) :
    (encodeChunk c).length = 12 + c.data.length := by
  obtain ⟨ht, hc, -⟩ := h
  simp [encodeChunk, be32, stringToLatin1Bytes, ht, hc]
  omega

lemma drop_replicate (a : Nat) : ∀ n k : Nat,
    (List.replicate k a).drop n = List.replicate (k - n) a := by
  intro n
  induction n with
  | zero => intro k; simp
  | succ n ih =>
      intro k
      cases k with
      | zero => simp
      | succ k => simpa [List.replicate_succ] using ih k

lemma jsSetBytes_fill (p vals : List Nat) (k : Nat) (h : vals.length ≤ k) :
    jsSetBytes (p ++ List.replicate k 0) (p.length : Int) vals =
      (p ++ vals) ++ List.replicate (k - vals.length) 0 := by
  unfold jsSetBytes
  rw [Int.toNat_ofNat]
  rw [List.take_left]
  have hdrop : (p ++ List.replicate k 0).drop (p.length + vals.length) =
      List.replicate (k - vals.length) 0 := by
    rw [List.drop_append_eq_append_drop]
    have h1 : p.length + vals.length - p.length = vals.length := by omega
    simp [h1, drop_replicate]
  rw [hdrop, List.append_assoc]

lemma totalSize_foldl (cs : List PngChunk) (hwf : ∀ c ∈ cs, BuildWF c) :
    ∀ z : Int, cs.foldl (fun s c => s + 12 + c.length) z =
      z + ((encodeChunks cs).length : Int) := by
  induction cs with
  | nil => intro z; simp [encodeChunks]
  | cons c cs ih =>
      intro z
      have hc := hwf c (by simp)
      rw [List.foldl_cons, ih (fun d hd => hwf d (by simp [hd])) (z + 12 + c.length)]
      have henc : (encodeChunks (c :: cs)).length =
          12 + c.data.length + (encodeChunks cs).length := by
        simp [encodeChunks, length_encodeChunk c hc]
      rw [henc, hc.2.2]
      push_cast
      ring

lemma buildChunkWrite_aligned (p : List Nat) (c : PngChunk) (hwf : BuildWF c)
    (k : Nat) (hk : 12 + c.data.length ≤ k) :
    buildChunkWrite (p ++ List.replicate k 0, (p.length : Int)) c =
      ((p ++ encodeChunk c) ++ List.replicate (k - (12 + c.data.length)) 0,
        ((p ++ encodeChunk c).length : Int)) := by
  obtain ⟨ht, hcrc, hlen⟩ := hwf
  have hlat : (stringToLatin1Bytes c.type).length = 4 := by
    simp [stringToLatin1Bytes, ht]
  have hbe : (be32 (toUint32 c.length)).length = 4 := by simp [be32]
  simp only [buildChunkWrite]
  -- write 1: the 4 length bytes at offset p.length
  rw [jsSetBytes_fill p (be32 (toUint32 c.length)) k (by omega)]
  -- write 2: the 4 type bytes at offset p.length + 4
  have ho₁ : (p.length : Int) + 4 =
      (((p ++ be32 (toUint32 c.length)).length : Nat) : Int) := by
    simp [hbe]
  rw [ho₁, jsSetBytes_fill (p ++ be32 (toUint32 c.length)) (stringToLatin1Bytes c.type)
    (k - (be32 (toUint32 c.length)).length) (by omega)]
  -- write 3: the data at offset p.length + 8
  have ho₂ : (((p ++ be32 (toUint32 c.length)).length : Nat) : Int) + 4 =
      ((((p ++ be32 (toUint32 c.length)) ++ stringToLatin1Bytes c.type).length : Nat) : Int) := by
    simp [hlat]
    push_cast
    ring
  rw [ho₂, jsSetBytes_fill ((p ++ be32 (toUint32 c.length)) ++ stringToLatin1Bytes c.type)
    c.data (k - (be32 (toUint32 c.length)).length - (stringToLatin1Bytes c.type).length)
    (by omega)]
  -- write 4: the 4 crc bytes at offset p.length + 8 + c.length
  have ho₃ : ((((p ++ be32 (toUint32 c.length)) ++ stringToLatin1Bytes c.type).length : Nat) : Int)
        + c.length =
      (((((p ++ be32 (toUint32 c.length)) ++ stringToLatin1Bytes c.type) ++ c.data).length : Nat) : Int) := by
    simp [hlen]
    push_cast
    ring
  rw [ho₃, jsSetBytes_fill
    (((p ++ be32 (toUint32 c.length)) ++ stringToLatin1Bytes c.type) ++ c.data) c.crc
    (k - (be32 (toUint32 c.length)).length - (stringToLatin1Bytes c.type).length - c.data.length)
    (by omega)]
  refine Prod.ext ?_ ?_
  · show ((((p ++ _) ++ _) ++ c.data) ++ c.crc) ++ _ = _
    have hrep : k - (be32 (toUint32 c.length)).length - (stringToLatin1Bytes c.type).length
        - c.data.length - c.crc.length = k - (12 + c.data.length) := by
      rw [hbe, hlat, hcrc]
      omega
    rw [hrep, encodeChunk]
    simp [List.append_assoc]
  · show ((((p ++ be32 (toUint32 c.length)) ++ stringToLatin1Bytes c.type) ++ c.data).length : Int)
        + 4 = _
    rw [encodeChunk]
    simp [hbe, hlat, hcrc, hlen]
    push_cast
    ring

lemma buildFold_eq (cs : List PngChunk) (hwf : ∀ c ∈ cs, BuildWF c) :
    ∀ p : List Nat,
      (cs.foldl buildChunkWrite
        (p ++ List.replicate (encodeChunks cs).length 0, (p.length : Int))).1 =
        p ++ encodeChunks cs := by
  induction cs with
  | nil => intro p; simp [encodeChunks]
  | cons c cs ih =>
      intro p
      have hc := hwf c (by simp)
      have henc : (encodeChunks (c :: cs)).length =
          12 + c.data.length + (encodeChunks cs).length := by
        simp [encodeChunks, length_encodeChunk c hc]
      simp only [List.foldl_cons]
      rw [henc, buildChunkWrite_aligned p c hc _ (by omega)]
      have hrep : 12 + c.data.length + (encodeChunks cs).length - (12 + c.data.length) =
          (encodeChunks cs).length := by omega
      rw [hrep]
      have := ih (fun d hd => hwf d (by simp [hd])) (p ++ encodeChunk c)
      rw [this]
      simp [encodeChunks, List.append_assoc]

/-- Under the structural well-formedness of its chunks, `buildPNG`'s
sequential array writes produce exactly the signature followed by the
concatenated chunk encodings. -/
lemma buildPNG_eq_concat (cs : List PngChunk) (hwf : ∀ c ∈ cs, BuildWF c) :
    buildPNG cs = pngSignature ++ encodeChunks cs := by
  simp only [buildPNG]
  rw [totalSize_foldl cs hwf 8]
  have htot : ((8 + ((encodeChunks cs).length : Int)).toNat) =
      8 + (encodeChunks cs).length := by omega
  rw [htot]
  have hsig : jsSetBytes (List.replicate (8 + (encodeChunks cs).length) 0)
      (0 : Int) pngSignature =
      pngSignature ++ List.replicate (encodeChunks cs).length 0 := by
    have := jsSetBytes_fill [] pngSignature (8 + (encodeChunks cs).length) (by simp [pngSignature])
    simpa [pngSignature] using this
  rw [hsig]
  have h8 : (8 : Int) = ((pngSignature.length : Nat) : Int) := by simp [pngSignature]
  rw [h8, buildFold_eq cs hwf pngSignature]

lemma jsByteAt_append (p s : List Nat) (i : Int) (h : 0 ≤ i) :
    jsByteAt (p ++ s) ((p.length : Int) + i) = jsByteAt s i := by
  unfold jsByteAt
  rw [if_neg (by omega), if_neg (not_lt.mpr h)]
  have htn : ((p.length : Int) + i).toNat = p.length + i.toNat := by omega
  rw [htn, List.getD_append_right _ _ _ _ (by omega)]
  congr 1
  omega

lemma jsSlice_append (p s : List Nat) (x y : Int) (hx : 0 ≤ x) (hy : 0 ≤ y) :
    jsSlice (p ++ s) ((p.length : Int) + x) ((p.length : Int) + y) = jsSlice s x y := by
  simp only [jsSlice]
  rw [if_neg (by omega), if_neg (by omega), if_neg (not_lt.mpr hx), if_neg (not_lt.mpr hy)]
  simp only [List.length_append]
  have hlo : min ((p.length : Int) + x).toNat (p.length + s.length) =
      p.length + min x.toNat s.length := by omega
  have hhi : min ((p.length : Int) + y).toNat (p.length + s.length) =
      p.length + min y.toNat s.length := by omega
  rw [hlo, hhi]
  rw [List.drop_append_eq_append_drop]
  have h1 : p.length + min x.toNat s.length - p.length = min x.toNat s.length := by omega
  have h2 : p.drop (p.length + min x.toNat s.length) = [] := by
    apply List.drop_eq_nil_of_le
    omega
  rw [h1, h2, List.nil_append]
  congr 1
  omega

lemma jsSlice_ofNat (s : List Nat) (a b : Nat) :
    jsSlice s (a : Int) (b : Int) =
      (s.drop (min a s.length)).take (min b s.length - min a s.length) := by
  simp only [jsSlice]
  rw [if_neg (by omega), if_neg (by omega)]
  simp

lemma toUint32_ofNat (d : Nat) (h : d < 2 ^ 32) : toUint32 (d : Int) = d := by
  unfold toUint32
  omega

lemma list_eq_of_length_four (l : List Nat) (h : l.length = 4) :
    ∃ a b c d, l = [a, b, c, d] := by
  match l, h with
  | [a, b, c, d], _ => exact ⟨a, b, c, d, rfl⟩

lemma jsSlice_exact (l₁ l₂ l₃ : List Nat) :
    jsSlice ((l₁ ++ l₂) ++ l₃) ((l₁.length : Nat) : Int)
      (((l₁.length + l₂.length : Nat)) : Int) = l₂ := by
  rw [jsSlice_ofNat]
  have hlen : ((l₁ ++ l₂) ++ l₃).length = l₁.length + l₂.length + l₃.length := by
    simp
    omega
  have h1 : min l₁.length ((l₁ ++ l₂) ++ l₃).length = l₁.length := by
    rw [hlen]; omega
  have h2 : min (l₁.length + l₂.length) ((l₁ ++ l₂) ++ l₃).length =
      l₁.length + l₂.length := by
    rw [hlen]; omega
  rw [h1, h2]
  rw [List.append_assoc, List.drop_left]
  have h3 : l₁.length + l₂.length - l₁.length = l₂.length := by omega
  rw [h3, List.take_left]

lemma readInt32BE_at_be32 (p rest : List Nat) (u : Nat) (hu : u < 2 ^ 31) :
    readInt32BE (p ++ (be32 u ++ rest)) (p.length : Int) = (u : Int) := by
  unfold readInt32BE
  have h0 : jsByteAt (p ++ (be32 u ++ rest)) ((p.length : Int)) =
      jsByteAt (be32 u ++ rest) 0 := by
    have := jsByteAt_append p (be32 u ++ rest) 0 (by omega)
    simpa using this
  have h1 := jsByteAt_append p (be32 u ++ rest) 1 (by omega)
  have h2 := jsByteAt_append p (be32 u ++ rest) 2 (by omega)
  have h3 := jsByteAt_append p (be32 u ++ rest) 3 (by omega)
  rw [h0, h1, h2, h3]
  have e0 : jsByteAt (be32 u ++ rest) 0 = u / 2 ^ 24 % 256 := by
    simp [jsByteAt, be32]
  have e1 : jsByteAt (be32 u ++ rest) 1 = u / 2 ^ 16 % 256 := by
    simp [jsByteAt, be32]
  have e2 : jsByteAt (be32 u ++ rest) 2 = u / 2 ^ 8 % 256 := by
    simp [jsByteAt, be32]
  have e3 : jsByteAt (be32 u ++ rest) 3 = u % 256 := by
    simp [jsByteAt, be32]
  rw [e0, e1, e2, e3]
  have hsum : u / 2 ^ 24 % 256 * 2 ^ 24 + u / 2 ^ 16 % 256 * 2 ^ 16 +
      u / 2 ^ 8 % 256 * 2 ^ 8 + u % 256 = u := by omega
  rw [hsum]
  unfold toInt32
  have hmod : u % 2 ^ 32 = u := by omega
  simp only [hmod]
  rw [if_pos (by omega)]

/-- One loop iteration of `parsePNGChunks` at the start of a well-formed
encoded chunk reads back exactly that chunk (type passed through
`stringToLatin1Bytes`) and advances the offset past it. -/
lemma parseGo_step (p : List Nat) (c : PngChunk) (rest : List Nat)
    (hwf : RoundTripWF c) (fuel : Nat) :
    parsePNGChunksGo (p ++ (encodeChunk c ++ rest)) (fuel + 1) (p.length : Int) =
      { type := stringToLatin1Bytes c.type, data := c.data, crc := c.crc,
        length := (c.data.length : Int) } ::
        parsePNGChunksGo (p ++ (encodeChunk c ++ rest)) fuel
          ((p.length : Int) + 12 + (c.data.length : Int)) := by
  obtain ⟨⟨ht, hcrc, hlen⟩, htcodes, hdlen⟩ := hwf
  obtain ⟨t0, t1, t2, t3, htype⟩ := list_eq_of_length_four c.type ht
  have hu32 : toUint32 c.length = c.data.length := by
    rw [hlen]
    exact toUint32_ofNat _ (by omega)
  have hbe4 : (be32 c.data.length).length = 4 := by simp [be32]
  have hlat4 : (stringToLatin1Bytes c.type).length = 4 := by
    simp [stringToLatin1Bytes, ht]
  -- the encoded bytes, right-associated
  have henc : encodeChunk c ++ rest =
      be32 c.data.length ++ (stringToLatin1Bytes c.type ++ (c.data ++ (c.crc ++ rest))) := by
    simp [encodeChunk, hu32, List.append_assoc]
  have hslen : (p ++ (encodeChunk c ++ rest)).length =
      p.length + (12 + c.data.length + rest.length) := by
    rw [henc]
    simp [hbe4, hlat4, hcrc]
    omega
  -- the length read
  have hread : readInt32BE (p ++ (encodeChunk c ++ rest)) (p.length : Int) =
      (c.data.length : Int) := by
    rw [henc]
    exact readInt32BE_at_be32 p _ c.data.length (by omega)
  -- the four type bytes
  have hplen4 : ((p ++ be32 c.data.length).length : Int) = (p.length : Int) + 4 := by
    simp only [List.length_append, hbe4]
    push_cast
    ring
  have harr : (p ++ be32 c.data.length) ++
      (stringToLatin1Bytes c.type ++ (c.data ++ (c.crc ++ rest))) =
      p ++ (encodeChunk c ++ rest) := by
    rw [henc, List.append_assoc]
  have htb : ∀ k : Nat,
      jsByteAt (p ++ (encodeChunk c ++ rest)) (((p.length : Int) + 4) + (k : Int)) =
        jsByteAt (stringToLatin1Bytes c.type ++ (c.data ++ (c.crc ++ rest))) (k : Int) := by
    intro k
    have h₁ := jsByteAt_append (p ++ be32 c.data.length)
      (stringToLatin1Bytes c.type ++ (c.data ++ (c.crc ++ rest))) (k : Int) (by omega)
    rw [harr, hplen4] at h₁
    exact h₁
  have hb0 : jsByteAt (p ++ (encodeChunk c ++ rest)) ((p.length : Int) + 4) =
      (if t0 ≤ 255 then t0 else 63) := by
    have := htb 0
    norm_num at this
    rw [this]
    simp [jsByteAt, htype, stringToLatin1Bytes]
  have hb1 : jsByteAt (p ++ (encodeChunk c ++ rest)) ((p.length : Int) + 5) =
      (if t1 ≤ 255 then t1 else 63) := by
    have := htb 1
    norm_num at this
    rw [show (p.length : Int) + 5 = (p.length : Int) + 4 + 1 by ring, this]
    simp [jsByteAt, htype, stringToLatin1Bytes]
  have hb2 : jsByteAt (p ++ (encodeChunk c ++ rest)) ((p.length : Int) + 6) =
      (if t2 ≤ 255 then t2 else 63) := by
    have := htb 2
    norm_num at this
    rw [show (p.length : Int) + 6 = (p.length : Int) + 4 + 2 by ring, this]
    simp [jsByteAt, htype, stringToLatin1Bytes]
  have hb3 : jsByteAt (p ++ (encodeChunk c ++ rest)) ((p.length : Int) + 7) =
      (if t3 ≤ 255 then t3 else 63) := by
    have := htb 3
    norm_num at this
    rw [show (p.length : Int) + 7 = (p.length : Int) + 4 + 3 by ring, this]
    simp [jsByteAt, htype, stringToLatin1Bytes]
  -- the data slice
  have hdata : jsSlice (p ++ (encodeChunk c ++ rest))
      ((p.length : Int) + 8) ((p.length : Int) + 8 + (c.data.length : Int)) = c.data := by
    have key := jsSlice_exact ((p ++ be32 c.data.length) ++ stringToLatin1Bytes c.type)
      c.data (c.crc ++ rest)
    have harr2 : (((p ++ be32 c.data.length) ++ stringToLatin1Bytes c.type) ++ c.data) ++
        (c.crc ++ rest) = p ++ (encodeChunk c ++ rest) := by
      rw [henc]
      simp [List.append_assoc]
    have ha : ((((p ++ be32 c.data.length) ++ stringToLatin1Bytes c.type).length : Nat) : Int) =
        (p.length : Int) + 8 := by
      simp only [List.length_append, hbe4, hlat4]
      push_cast
      ring
    have hb : ((((p ++ be32 c.data.length) ++ stringToLatin1Bytes c.type).length +
        c.data.length : Nat) : Int) = (p.length : Int) + 8 + (c.data.length : Int) := by
      simp only [List.length_append, hbe4, hlat4]
      push_cast
      ring
    rw [harr2, ha, hb] at key
    exact key
  -- the crc slice
  have hcrcs : jsSlice (p ++ (encodeChunk c ++ rest))
      ((p.length : Int) + 8 + (c.data.length : Int))
      ((p.length : Int) + 12 + (c.data.length : Int)) = c.crc := by
    have key := jsSlice_exact
      (((p ++ be32 c.data.length) ++ stringToLatin1Bytes c.type) ++ c.data) c.crc rest
    have harr2 : ((((p ++ be32 c.data.length) ++ stringToLatin1Bytes c.type) ++ c.data) ++
        c.crc) ++ rest = p ++ (encodeChunk c ++ rest) := by
      rw [henc]
      simp [List.append_assoc]
    have ha : (((((p ++ be32 c.data.length) ++ stringToLatin1Bytes c.type) ++ c.data).length
        : Nat) : Int) = (p.length : Int) + 8 + (c.data.length : Int) := by
      simp only [List.length_append, hbe4, hlat4]
      push_cast
      ring
    have hb : (((((p ++ be32 c.data.length) ++ stringToLatin1Bytes c.type) ++ c.data).length +
        c.crc.length : Nat) : Int) =
        (p.length : Int) + 12 + (c.data.length : Int) := by
      simp only [List.length_append, hbe4, hlat4, hcrc]
      push_cast
      ring
    rw [harr2, ha, hb] at key
    exact key
  simp only [parsePNGChunksGo]
  rw [if_pos (by rw [hslen]; push_cast; omega)]
  rw [if_neg (by rw [hslen]; push_cast; omega)]
  rw [hread, hb0, hb1, hb2, hb3, hdata, hcrcs]
  rw [htype]
  simp [stringToLatin1Bytes]

lemma encodeChunks_length_ge (cs : List PngChunk) (hwf : ∀ c ∈ cs, BuildWF c) :
    cs.length ≤ (encodeChunks cs).length := by
  induction cs with
  | nil => simp [encodeChunks]
  | cons c cs ih =>
      have hc := hwf c (by simp)
      have := ih (fun d hd => hwf d (by simp [hd]))
      simp only [encodeChunks, List.length_append, List.length_cons,
        length_encodeChunk c hc]
      omega

/-- Parsing the concatenation of well-formed encoded chunks placed after an
arbitrary prefix, starting at the end of the prefix, recovers the chunks
(types passed through `stringToLatin1Bytes`), for any sufficient fuel. -/
lemma parseGo_encodeChunks (cs : List PngChunk) (hwf : ∀ c ∈ cs, RoundTripWF c) :
    ∀ (p : List Nat) (fuel : Nat), cs.length + 1 ≤ fuel →
      parsePNGChunksGo (p ++ encodeChunks cs) fuel (p.length : Int) =
        cs.map (fun c => PngChunk.mk (stringToLatin1Bytes c.type) c.data c.crc
          (c.data.length : Int)) := by
  induction cs with
  | nil =>
      intro p fuel hf
      obtain ⟨f, rfl⟩ : ∃ f, fuel = f + 1 := ⟨fuel - 1, by omega⟩
      simp only [encodeChunks, List.append_nil, parsePNGChunksGo, List.map_nil]
      rw [if_neg (by omega)]
  | cons c cs ih =>
      intro p fuel hf
      obtain ⟨f, rfl⟩ : ∃ f, fuel = f + 1 := ⟨fuel - 1, by omega⟩
      have hc := hwf c (by simp)
      have hstep := parseGo_step p c (encodeChunks cs) hc f
      rw [show encodeChunks (c :: cs) = encodeChunk c ++ encodeChunks cs from rfl]
      rw [hstep, List.map_cons]
      congr 1
      have hoff : (p.length : Int) + 12 + (c.data.length : Int) =
          (((p ++ encodeChunk c).length : Nat) : Int) := by
        simp only [List.length_append, length_encodeChunk c hc.1]
        push_cast
        ring
      rw [hoff]
      rw [show p ++ (encodeChunk c ++ encodeChunks cs) =
        (p ++ encodeChunk c) ++ encodeChunks cs from by rw [List.append_assoc]]
      exact ih (fun d hd => hwf d (by simp [hd])) (p ++ encodeChunk c) f (by
        simp only [List.length_cons] at hf
        omega)

lemma latin1_id (t : List Nat) (h : ∀ x ∈ t, x ≤ 255) :
    stringToLatin1Bytes t = t := by
  induction t with
  | nil => rfl
  | cons a t ih =>
      have ha : a ≤ 255 := h a (by simp)
      simp only [stringToLatin1Bytes, List.map_cons, if_pos ha]
      have := ih (fun x hx => h x (by simp [hx]))
      simp only [stringToLatin1Bytes] at this
      rw [this]

/-- C3 (amended): round-trip of the chunk codec.  For every list of
well-formed chunks — 4-character type whose code units are Latin-1
(≤ 255), byte data with `length` equal to the data's byte length and
shorter than 2^31, and a 4-byte crc — parsing the bytes produced by
`buildPNG` yields chunks with exactly the same `{type, data}` pairs in the
same order. -/
theorem parse_build_roundtrip (chunks : List PngChunk)
    (hwf : ∀ c ∈ chunks, RoundTripWF c) :
    (parsePNGChunks (buildPNG chunks)).map (fun c => (c.type, c.data)) =
      chunks.map (fun c => (c.type, c.data)) := by
  have hbwf : ∀ c ∈ chunks, BuildWF c := fun c hc => (hwf c hc).1
  rw [buildPNG_eq_concat chunks hbwf]
  unfold parsePNGChunks
  have hsig : ((8 : Nat) : Int) = ((pngSignature.length : Nat) : Int) := by
    simp [pngSignature]
  have hfuel : chunks.length + 1 ≤ (pngSignature ++ encodeChunks chunks).length + 1 := by
    have h1 := encodeChunks_length_ge chunks hbwf
    simp only [List.length_append]
    omega
  rw [show ((8 : Int)) = ((pngSignature.length : Nat) : Int) from by simp [pngSignature]]
  rw [parseGo_encodeChunks chunks hwf pngSignature _ hfuel]
  rw [List.map_map]
  apply List.map_congr_left
  intro c hc
  simp only [Function.comp]
  rw [latin1_id c.type (hwf c hc).2.1]

/-- C3 counterexample: the claim as stated — well-formedness asking only
for a 4-character type and a length field equal to the data length — is
falsified by a chunk whose 4-character type contains the non-Latin-1 code
unit 256: `buildPNG` writes it as `?` (63), so parsing back yields a
different `{type, data}` sequence. -/
theorem parse_build_roundtrip_cex :
    (PngChunk.mk [256, 69, 78, 68] [] [0, 0, 0, 0] 0).type.length = 4 ∧
    (PngChunk.mk [256, 69, 78, 68] [] [0, 0, 0, 0] 0).length =
      ((PngChunk.mk [256, 69, 78, 68] [] [0, 0, 0, 0] 0).data.length : Int) ∧
    (PngChunk.mk [256, 69, 78, 68] [] [0, 0, 0, 0] 0).crc.length = 4 ∧
    (parsePNGChunks (buildPNG [PngChunk.mk [256, 69, 78, 68] [] [0, 0, 0, 0] 0])).map
        (fun c => (c.type, c.data)) ≠
      [PngChunk.mk [256, 69, 78, 68] [] [0, 0, 0, 0] 0].map (fun c => (c.type, c.data)) := by
  refine ⟨rfl, rfl, rfl, ?_⟩
  decide

/-- C3 witness: the round trip on a concrete two-chunk list (an `IHDR`-typed
and an `IEND`-typed chunk). -/
theorem parse_build_roundtrip_witness :
    (∀ c ∈ [PngChunk.mk [73, 72, 68, 82] [1, 2, 3] [9, 9, 9, 9] 3,
            PngChunk.mk [73, 69, 78, 68] [] [0, 0, 0, 0] 0], RoundTripWF c) ∧
    (parsePNGChunks (buildPNG [PngChunk.mk [73, 72, 68, 82] [1, 2, 3] [9, 9, 9, 9] 3,
        PngChunk.mk [73, 69, 78, 68] [] [0, 0, 0, 0] 0])).map (fun c => (c.type, c.data)) =
      [PngChunk.mk [73, 72, 68, 82] [1, 2, 3] [9, 9, 9, 9] 3,
        PngChunk.mk [73, 69, 78, 68] [] [0, 0, 0, 0] 0].map (fun c => (c.type, c.data)) :=
  ⟨by decide, parse_build_roundtrip _ (by decide)⟩

/-- C2 witness: the cache-consistency conjunct applied at a concrete input
and a concretely primed cache. -/
theorem crc32_matches_standard_reference_witness :
    (calculateCRC32Run (some crcTable) [1, 2, 3]).2 = crcTable ∧
    (calculateCRC32Run (some crcTable) [1, 2, 3]).1 = calculateCRC32 [1, 2, 3] :=
  ⟨rfl, crc32_matches_standard_reference.2.2.2.2.1 [1, 2, 3] (some crcTable) rfl⟩

/-- C5 witness: splicing a `tEXt` chunk into `[IHDR, IEND]` lands between
the two, and a chunk list without `IEND` fails with the structural error. -/
theorem insertBeforeIEND_witness :
    insertChunksBeforeIEND
        [PngChunk.mk ihdrType [] [0, 0, 0, 0] 0]
        [PngChunk.mk tEXtType [] [0, 0, 0, 0] 0] =
      .error "Invalid PNG: no IEND chunk found" ∧
    insertChunksBeforeIEND
        [PngChunk.mk ihdrType [] [0, 0, 0, 0] 0, PngChunk.mk iendType [] [0, 0, 0, 0] 0]
        [PngChunk.mk tEXtType [] [0, 0, 0, 0] 0] =
      .ok [PngChunk.mk ihdrType [] [0, 0, 0, 0] 0, PngChunk.mk tEXtType [] [0, 0, 0, 0] 0,
        PngChunk.mk iendType [] [0, 0, 0, 0] 0] :=
  ⟨insertBeforeIEND_splices_before_first_IEND.1 _ _ (by decide),
   (insertBeforeIEND_splices_before_first_IEND.2
      [PngChunk.mk ihdrType [] [0, 0, 0, 0] 0, PngChunk.mk iendType [] [0, 0, 0, 0] 0]
      [PngChunk.mk tEXtType [] [0, 0, 0, 0] 0] 1 (by decide)).1⟩

/-- C6 witness: empty and 80-character keywords give `null`; a 79-character
keyword gives a `tEXt` chunk with the described structure. -/
theorem createTextChunk_witness :
    createTextChunk [] [66] = none ∧
    createTextChunk (List.replicate 80 65) [66] = none ∧
    (∃ ch : PngChunk, createTextChunk (List.replicate 79 65) [66] = some ch ∧
      ch.type = tEXtType ∧
      ch.data = stringToLatin1Bytes (List.replicate 79 65) ++ [0] ++ stringToLatin1Bytes [66] ∧
      ch.crc = be32 (calculateCRC32 (stringToLatin1Bytes tEXtType ++ ch.data)) ∧
      ch.length = (ch.data.length : Int)) :=
  ⟨(createTextChunk_none_iff_bad_keyword.1 [] [66]).mpr (by decide),
   (createTextChunk_none_iff_bad_keyword.1 (List.replicate 80 65) [66]).mpr (by decide),
   createTextChunk_none_iff_bad_keyword.2 (List.replicate 79 65) [66] (by decide) (by decide)⟩

/-- C4 witness: a 3-byte non-PNG blob is returned unchanged, and a blob on
which the metadata flow raises the structural error is returned unchanged. -/
theorem preserveMetadata_returns_input_on_failure_witness :
    (([1, 2, 3] : List Nat).take 8 ≠ pngSignature ∧
      preserveMetadata [1, 2, 3] (some []) = [1, 2, 3]) ∧
    (addMetadataToPNG [255] [] = .error "Invalid PNG: no IEND chunk found" ∧
      preserveMetadata [255] (some []) = [255]) :=
  ⟨⟨by decide, preserveMetadata_returns_input_on_failure.1 [1, 2, 3] (some []) (by decide)⟩,
   ⟨rfl, preserveMetadata_returns_input_on_failure.2 [255] [] _ rfl⟩⟩

/-! ## Image processor (src/modules/ImageProcessor.js)

`ImageData` buffers are `List Nat` of bytes (R,G,B,A row-major), with
width/height carried separately.  JS float arithmetic on the resize and
posterize ratios is modelled by exact rationals `ℚ`; `Math.round` is
`⌊q + 1/2⌋`; a store into a `Uint8ClampedArray` clamps to `[0, 255]`
rounding halves to even. -/

/-- JS `Math.round`: round half toward positive infinity. -/
def jsRound (q : ℚ) : Int := Int.floor (q + 1 / 2)

/-- Storing a JS number into a `Uint8ClampedArray` slot: clamp to
`[0, 255]`, rounding halves to the nearest even integer. -/
def clampByte (q : ℚ) : Nat :=
  if q ≤ 0 then 0
  else if 255 ≤ q then 255
  else
    let fl := Int.floor q
    let fr := q - fl
    if fr < 1 / 2 then fl.toNat
    else if 1 / 2 < fr then fl.toNat + 1
    else if fl % 2 = 0 then fl.toNat else fl.toNat + 1

/-- The inner-loop body of `resizeImageData`: the 4 channel bytes the
destination pixel `(x, y)` receives, read from the source pixel at
`(Math.floor(x * xRatio), Math.floor(y * yRatio))`.  Out-of-range source
reads give `undefined`, stored as 0 by the clamped destination array. -/
def resizePixel (data : List Nat) (srcWidth : Nat) (xr yr : ℚ) (y x : Nat) :
    List Nat :=
  let srcX := (Int.floor ((x : ℚ) * xr)).toNat
  let srcY := (Int.floor ((y : ℚ) * yr)).toNat
  let srcIndex := (srcY * srcWidth + srcX) * 4
  [data.getD srcIndex 0, data.getD (srcIndex + 1) 0,
   data.getD (srcIndex + 2) 0, data.getD (srcIndex + 3) 0]

/-- The `destData` buffer the nested y/x loops of `resizeImageData` fill:
the source's `xRatio`/`yRatio` (`srcWidth / destWidth`,
`srcHeight / destHeight`) are modelled as exact rationals; the loops
become nested flattened maps over index ranges, each destination pixel
written exactly once in row-major order. -/
def resizeDestData (data : List Nat) (srcWidth srcHeight destWidth destHeight : Nat) :
    List Nat :=
  let xr : ℚ := (srcWidth : ℚ) / (destWidth : ℚ)
  let yr : ℚ := (srcHeight : ℚ) / (destHeight : ℚ)
  (((List.range destHeight).map (fun y =>
    (((List.range destWidth).map (resizePixel data srcWidth xr yr y))).flatten))).flatten

/-- The browser's `new ImageData(data, sw, sh)` constructor: it throws
`InvalidStateError` when the data length is not a *nonzero* integral
multiple of 4, and `IndexSizeError` when `sw` is 0, the pixel count is
not a multiple of `sw`, or the derived height differs from the given
`sh`; otherwise it yields the bitmap with those dimensions. -/
def newImageData (data : List Nat) (sw sh : Nat) :
    Except String (List Nat × Nat × Nat) :=
  if data.length = 0 ∨ data.length % 4 ≠ 0 then .error "InvalidStateError"
  else if sw = 0 ∨ (data.length / 4) % sw ≠ 0 then .error "IndexSizeError"
  else if data.length / 4 / sw ≠ sh then .error "IndexSizeError"
  else .ok (data, sw, sh)

/-- `resizeImageData(imageData, srcWidth, srcHeight, destWidth, destHeight)`:
nearest-neighbor resize — the nested copy loops followed by the function's
final `return new ImageData(destData, destWidth, destHeight)`, which
throws when a destination dimension is 0 (the zeroed `destData` is empty,
an `InvalidStateError`). -/
def resizeImageData (data : List Nat) (srcWidth srcHeight destWidth destHeight : Nat) :
    Except String (List Nat) :=
  (newImageData (resizeDestData data srcWidth srcHeight destWidth destHeight)
    destWidth destHeight).map (fun img => img.1)

/-- `calculatePosterizeLevels(targetColors)`: the fixed lookup table. -/
def calculatePosterizeLevels (targetColors : Nat) : Nat :=
  if targetColors ≤ 4 then 2
  else if targetColors ≤ 8 then 3
  else if targetColors ≤ 16 then 4
  else if targetColors ≤ 32 then 5
  else if targetColors ≤ 64 then 6
  else if targetColors ≤ 128 then 7
  else 8

/-- One posterized channel byte: `Math.round(value / step) * step`,
stored through the clamped destination array. -/
def posterizeByte (step : ℚ) (v : Nat) : Nat :=
  clampByte ((jsRound ((v : ℚ) / step) : ℚ) * step)

/-- The `i += 4` loop of `posterizeColors`: R,G,B posterized, alpha
copied (a trailing partial block keeps its length: the JS out-of-range
writes are dropped and its missing reads default like the other loops). -/
def posterizeLoop (step : ℚ) : List Nat → List Nat
  | r :: g :: b :: a :: rest =>
    posterizeByte step r :: posterizeByte step g :: posterizeByte step b :: a ::
      posterizeLoop step rest
  | [] => []
  | l =>
    ([posterizeByte step (l.getD 0 0), posterizeByte step (l.getD 1 0),
      posterizeByte step (l.getD 2 0), l.getD 3 0]).take l.length

/-- `posterizeColors(imageData, colorCount)`: `step = 255 / (levels - 1)`;
every R,G,B byte becomes `Math.round(value / step) * step`, alpha is
copied unchanged. -/
def posterizeColors (data : List Nat) (colorCount : Nat) : List Nat :=
  let levels := calculatePosterizeLevels colorCount
  posterizeLoop (255 / ((levels : ℚ) - 1)) data

/-- `Math.max(...values)` on a list of naturals (the nonempty case; the
callers below never pass an empty list). -/
def listMax : List Nat → Nat
  | [] => 0
  | x :: xs => xs.foldl max x

/-- `Math.min(...values)` on a list of naturals (the nonempty case). -/
def listMin : List Nat → Nat
  | [] => 0
  | x :: xs => xs.foldl min x

/-- The base case of `medianCut`: the component-wise average color,
`Math.round(sum / length)` per channel, `(0,0,0)` for an empty pixel list
(JS `NaN || 0`). -/
def averagePixel (pixels : List (List Nat)) : List Nat :=
  if pixels.length = 0 then [0, 0, 0]
  else
    [(jsRound ((((pixels.map (fun p => p.getD 0 0)).sum : Nat) : ℚ) / (pixels.length : ℚ))).toNat,
     (jsRound ((((pixels.map (fun p => p.getD 1 0)).sum : Nat) : ℚ) / (pixels.length : ℚ))).toNat,
     (jsRound ((((pixels.map (fun p => p.getD 2 0)).sum : Nat) : ℚ) / (pixels.length : ℚ))).toNat]

/-- The body of `medianCut(pixels, colorCount)`, with explicit fuel: the
JS recursion diverges for `colorCount = 0` on a single pixel (it recurses
on the same one-pixel list with the same count), so the Lean embedding
consumes one fuel unit per call; `medianCut` below supplies
`pixels.length + colorCount + 1` fuel, which the size theorems show is
never exhausted for `colorCount ≥ 1`.  Channel ranges pick the split axis
(first channel achieving the maximal range, via `indexOf`); the sort is
the stable ascending sort of JS `Array.prototype.sort` with comparator
`a[ch] - b[ch]`; the split is at `Math.floor(n / 2)`; the halves recurse
with `Math.floor(count / 2)` and `Math.ceil(count / 2)`. -/
def medianCutGo : Nat → List (List Nat) → Nat → List (List Nat)
  | 0, _, _ => []
  | fuel + 1, pixels, colorCount =>
    if colorCount = 1 ∨ pixels.length = 0 then
      [averagePixel pixels]
    else
      let ranges := [0, 1, 2].map (fun ch =>
        listMax (pixels.map (fun p => p.getD ch 0)) -
          listMin (pixels.map (fun p => p.getD ch 0)))
      let splitChannel := ranges.indexOf (listMax ranges)
      let sorted := pixels.mergeSort (fun a b =>
        decide (a.getD splitChannel 0 ≤ b.getD splitChannel 0))
      let mid := sorted.length / 2
      let left := sorted.take mid
      let right := sorted.drop mid
      medianCutGo fuel left (colorCount / 2) ++
        medianCutGo fuel right ((colorCount + 1) / 2)

/-- `medianCut(pixels, colorCount)`. -/
def medianCut (pixels : List (List Nat)) (colorCount : Nat) : List (List Nat) :=
  medianCutGo (pixels.length + colorCount + 1) pixels colorCount

/-- Squared Euclidean RGB distance.  The source compares
`Math.sqrt(Σ diff²)` values; `Math.sqrt` is strictly monotone on the
non-negative reals, so comparing the squares is equivalent (and keeps the
definition computable). -/
def sqDist (pixel color : List Nat) : Int :=
  ((pixel.getD 0 0 : Int) - (color.getD 0 0 : Int)) ^ 2 +
    ((pixel.getD 1 0 : Int) - (color.getD 1 0 : Int)) ^ 2 +
    ((pixel.getD 2 0 : Int) - (color.getD 2 0 : Int)) ^ 2

/-- `findNearestColor(pixel, palette)`: linear scan, strict `<` so the
first palette entry achieving the minimum wins; `minDistance` starts at
`Infinity`, so the first entry always replaces the initial
`palette[0]` seed (for an empty palette the JS value is `undefined`,
modelled as `[]`). -/
def findNearestColor (pixel : List Nat) (palette : List (List Nat)) : List Nat :=
  (palette.foldl
    (fun (acc : Option (Int × List Nat)) color =>
      let dist := sqDist pixel color
      match acc with
      | none => some (dist, color)
      | some best => if dist < best.1 then some (dist, color) else some best)
    none).elim (palette.getD 0 []) (fun best => best.2)

/-- The pixel-collection loop of `quantizeColors`: `[r, g, b]` triples in
stride 4 (a trailing partial block reads its missing bytes as the
out-of-range default). -/
def collectPixels : List Nat → List (List Nat)
  | r :: g :: b :: _ :: rest => [r, g, b] :: collectPixels rest
  | [] => []
  | l => [[l.getD 0 0, l.getD 1 0, l.getD 2 0]]

/-- The remapping loop of `quantizeColors`: each pixel's R,G,B are
replaced by its nearest palette color, alpha is copied unchanged
(a trailing partial block keeps its length, as the JS out-of-range
writes are dropped). -/
def quantizeLoop (palette : List (List Nat)) : List Nat → List Nat
  | r :: g :: b :: a :: rest =>
    let nearest := findNearestColor [r, g, b] palette
    nearest.getD 0 0 :: nearest.getD 1 0 :: nearest.getD 2 0 :: a ::
      quantizeLoop palette rest
  | [] => []
  | l =>
    let nearest := findNearestColor [l.getD 0 0, l.getD 1 0, l.getD 2 0] palette
    ([nearest.getD 0 0, nearest.getD 1 0, nearest.getD 2 0, l.getD 3 0]).take l.length

/-- `quantizeColors(imageData, colorCount)`: median-cut palette, then
nearest-color remap. -/
def quantizeColors (data : List Nat) (colorCount : Nat) : List Nat :=
  quantizeLoop (medianCut (collectPixels data) colorCount) data

/-- `applyRGB555(imageData)`: R,G,B become `(v >> 3) << 3`, alpha is
unchanged (same loop shape as the other per-pixel passes). -/
def applyRGB555 : List Nat → List Nat
  | r :: g :: b :: a :: rest =>
    r / 8 * 8 :: g / 8 * 8 :: b / 8 * 8 :: a :: applyRGB555 rest
  | [] => []
  | l =>
    ([l.getD 0 0 / 8 * 8, l.getD 1 0 / 8 * 8, l.getD 2 0 / 8 * 8, l.getD 3 0]).take l.length

/-- The inner-loop body of `snesCrop`: the 4 channel bytes destination
pixel `(x, y)` receives, read from source pixel `(left + x, top + y)`. -/
def cropPixel (data : List Nat) (width top left : Nat) (y x : Nat) : List Nat :=
  let srcIndex := ((top + y) * width + (left + x)) * 4
  [data.getD srcIndex 0, data.getD (srcIndex + 1) 0,
   data.getD (srcIndex + 2) 0, data.getD (srcIndex + 3) 0]

/-- `snesCrop(imageData, width, height)`: center crop to the fixed
256×224 target, clamping to the source size (never padding).  `left` and
`top` use `Math.floor` on a possibly negative difference, then `Math.max 0`. -/
def snesCrop (data : List Nat) (width height : Nat) : List Nat × Nat × Nat :=
  -- targetWidth = 256, targetHeight = 224 (the fixed SNES size)
  let left : Nat := (max 0 (Int.fdiv ((width : Int) - 256) 2)).toNat
  let top : Nat := (max 0 (Int.fdiv ((height : Int) - 224) 2)).toNat
  let cropWidth := min 256 (width - left)
  let cropHeight := min 224 (height - top)
  let destData :=
    (((List.range cropHeight).map (fun y =>
      (((List.range cropWidth).map (cropPixel data width top left y))).flatten))).flatten
  (destData, cropWidth, cropHeight)

/-- The `params` record of `processImage` (the spec's
TransformParameters). -/
structure TransformParameters where
  scale : Nat
  colors : Nat
  quantize : Bool
  rgb555 : Bool
  snescrop : Bool
  rescale : Bool
  deriving Repr, DecidableEq

/-- Step 1 of `processImage`: downscale by `scale` when `scale > 1`.
The stage keeps the buffer `resizeImageData`'s loops produce; the
wrapping `ImageData` construction (which fails only when a target
dimension is 0, a case no claim about the pipeline exercises) is
modelled on `resizeImageData` itself. -/
def pipelineStage1 (st : List Nat × Nat × Nat) (params : TransformParameters) :
    List Nat × Nat × Nat :=
  if params.scale > 1 then
    let newWidth := st.2.1 / params.scale
    let newHeight := st.2.2 / params.scale
    (resizeDestData st.1 st.2.1 st.2.2 newWidth newHeight, newWidth, newHeight)
  else st

/-- Step 2 of `processImage`: color quantization, guarded by
`params.colors < 256`. -/
def pipelineStage2 (st : List Nat × Nat × Nat) (params : TransformParameters) :
    List Nat × Nat × Nat :=
  if params.colors < 256 then
    if params.quantize then (quantizeColors st.1 params.colors, st.2.1, st.2.2)
    else (posterizeColors st.1 params.colors, st.2.1, st.2.2)
  else st

/-- Step 3 of `processImage`: RGB555 conversion when `rgb555`. -/
def pipelineStage3 (st : List Nat × Nat × Nat) (params : TransformParameters) :
    List Nat × Nat × Nat :=
  if params.rgb555 then (applyRGB555 st.1, st.2.1, st.2.2) else st

/-- Step 4 of `processImage`: SNES cropping when `snescrop`. -/
def pipelineStage4 (st : List Nat × Nat × Nat) (params : TransformParameters) :
    List Nat × Nat × Nat :=
  if params.snescrop then snesCrop st.1 st.2.1 st.2.2 else st

/-- Step 5 of `processImage`: upscale back when `rescale && scale > 1`,
from the current (possibly cropped) dimensions (buffer as in
`pipelineStage1`). -/
def pipelineStage5 (st : List Nat × Nat × Nat) (params : TransformParameters) :
    List Nat × Nat × Nat :=
  if params.rescale ∧ params.scale > 1 then
    let finalWidth := st.2.1 * params.scale
    let finalHeight := st.2.2 * params.scale
    (resizeDestData st.1 st.2.1 st.2.2 finalWidth finalHeight, finalWidth, finalHeight)
  else st

/-- `processImage(image, params)` on a decoded buffer: the five stages in
their fixed order. -/
def processImage (data : List Nat) (width height : Nat)
    (params : TransformParameters) : List Nat × Nat × Nat :=
  pipelineStage5 (pipelineStage4 (pipelineStage3 (pipelineStage2
    (pipelineStage1 (data, width, height) params) params) params) params) params

/-! ## Theorems about the pixel transforms (C1, C7, C8, C9) -/

lemma flatten_map_range_length (n B : Nat) (f : Nat → List Nat)
    (hB : ∀ i, i < n → (f i).length = B) :
    (((List.range n).map f).flatten).length = n * B := by
  induction n with
  | zero => simp
  | succ n ih =>
      rw [List.range_succ, List.map_append, List.flatten_append]
      simp only [List.map_cons, List.map_nil, List.flatten_cons, List.flatten_nil,
        List.append_nil, List.length_append]
      rw [ih (fun i hi => hB i (by omega)), hB n (by omega)]
      ring

lemma flatten_map_range_getD (n B : Nat) (f : Nat → List Nat)
    (hB : ∀ i, i < n → (f i).length = B)
    (i j : Nat) (hi : i < n) (hj : j < B) :
    (((List.range n).map f).flatten).getD (i * B + j) 0 = (f i).getD j 0 := by
  induction n with
  | zero => omega
  | succ n ih =>
      rw [List.range_succ, List.map_append, List.flatten_append]
      simp only [List.map_cons, List.map_nil, List.flatten_cons, List.flatten_nil,
        List.append_nil]
      have hlen : (((List.range n).map f).flatten).length = n * B :=
        flatten_map_range_length n B f (fun k hk => hB k (by omega))
      by_cases hin : i < n
      · rw [List.getD_append _ _ _ _ (by rw [hlen]; calc
          i * B + j < i * B + B := by omega
          _ ≤ n * B := by
            have : i + 1 ≤ n := hin
            calc i * B + B = (i + 1) * B := by ring
              _ ≤ n * B := Nat.mul_le_mul_right B this)]
        exact ih (fun k hk => hB k (by omega)) hin
      · have hieq : i = n := by omega
        subst hieq
        rw [List.getD_append_right _ _ _ _ (by rw [hlen]; omega)]
        congr 1
        rw [hlen]
        omega

lemma floor_mul_ratio (x a b : Nat) :
    (Int.floor ((x : ℚ) * ((a : ℚ) / (b : ℚ)))).toNat = x * a / b := by
  rw [Int.floor_toNat]
  have hcast : (x : ℚ) * ((a : ℚ) / (b : ℚ)) = ((x * a : ℕ) : ℚ) / ((b : ℕ) : ℚ) := by
    push_cast
    ring
  rw [hcast, Nat.floor_div_nat (((x * a : ℕ) : ℚ)) b, Nat.floor_natCast]

/-- C8 (amended): for destination dimensions `destWidth ≥ 1` and
`destHeight ≥ 1`, `resizeImageData` succeeds and returns a buffer of
length exactly `destWidth * destHeight * 4`; every destination pixel
`(x, y)` carries all 4 channels copied unchanged from the source pixel
`(floor(x * srcW / dstW), floor(y * srcH / dstH))`; when `destWidth` or
`destHeight` is 0 the loops produce an empty `destData` and the final
`new ImageData(...)` construction throws an `InvalidStateError`, so the
call errors rather than returning an empty buffer. -/
theorem resample_length_and_mapping :
    (∀ (data : List Nat) (sw sh dw dh : Nat), 1 ≤ dw → 1 ≤ dh →
      resizeImageData data sw sh dw dh = .ok (resizeDestData data sw sh dw dh) ∧
      (resizeDestData data sw sh dw dh).length = dw * dh * 4) ∧
    (∀ (data : List Nat) (sw sh dw dh x y ch : Nat), x < dw → y < dh → ch < 4 →
      (resizeDestData data sw sh dw dh).getD ((y * dw + x) * 4 + ch) 0 =
        data.getD ((y * sh / dh * sw + x * sw / dw) * 4 + ch) 0) ∧
    (∀ (data : List Nat) (sw sh dw dh : Nat), dw = 0 ∨ dh = 0 →
      resizeDestData data sw sh dw dh = [] ∧
      resizeImageData data sw sh dw dh = .error "InvalidStateError") := by
  have hpix : ∀ (data : List Nat) (sw : Nat) (xr yr : ℚ) (y x : Nat),
      (resizePixel data sw xr yr y x).length = 4 := by
    intro data sw xr yr y x
    rfl
  have hlen : ∀ (data : List Nat) (sw sh dw dh : Nat),
      (resizeDestData data sw sh dw dh).length = dw * dh * 4 := by
    intro data sw sh dw dh
    simp only [resizeDestData]
    rw [flatten_map_range_length dh (dw * 4) _ (fun y hy =>
      flatten_map_range_length dw 4 _ (fun x hx => hpix data sw _ _ y x))]
    ring
  refine ⟨?_, ?_, ?_⟩
  · intro data sw sh dw dh hdw hdh
    refine ⟨?_, hlen data sw sh dw dh⟩
    have h4 : dw * dh * 4 % 4 = 0 := Nat.mul_mod_left _ 4
    have hne : dw * dh * 4 ≠ 0 := by
      have : 0 < dw * dh * 4 := Nat.mul_pos (Nat.mul_pos (by omega) (by omega)) (by norm_num)
      omega
    have hdiv4 : dw * dh * 4 / 4 = dw * dh := Nat.mul_div_cancel _ (by norm_num)
    have hmodw : dw * dh % dw = 0 := Nat.mul_mod_right dw dh
    have hdivw : dw * dh / dw = dh := Nat.mul_div_cancel_left dh (by omega)
    unfold resizeImageData newImageData
    rw [hlen data sw sh dw dh]
    rw [if_neg (not_or.mpr ⟨hne, not_not_intro h4⟩)]
    rw [hdiv4]
    rw [if_neg (not_or.mpr ⟨by omega, not_not_intro hmodw⟩)]
    rw [hdivw]
    rw [if_neg (not_not_intro rfl)]
    rfl
  · intro data sw sh dw dh x y ch hx hy hch
    simp only [resizeDestData]
    have hidx : (y * dw + x) * 4 + ch = y * (dw * 4) + (x * 4 + ch) := by ring
    rw [hidx, flatten_map_range_getD dh (dw * 4) _
      (fun i hi => flatten_map_range_length dw 4 _ (fun x hx => hpix data sw _ _ i x))
      y (x * 4 + ch) hy (by omega)]
    rw [flatten_map_range_getD dw 4 _ (fun i _ => hpix data sw _ _ y i) x ch hx hch]
    simp only [resizePixel]
    rw [floor_mul_ratio x sw dw, floor_mul_ratio y sh dh]
    interval_cases ch <;> simp [List.getD]
  · intro data sw sh dw dh hzero
    have hnil : resizeDestData data sw sh dw dh = [] := by
      apply List.eq_nil_of_length_eq_zero
      rw [hlen]
      rcases hzero with h | h <;> simp [h]
    refine ⟨hnil, ?_⟩
    unfold resizeImageData
    rw [hnil]
    rfl

/-- C8 counterexample: the claim as stated — a zero `destWidth` or
`destHeight` "yields an empty buffer, not an error" — is falsified by the
final `ImageData` construction: at concrete zero destination dimensions
`resizeImageData` raises `InvalidStateError` instead of returning `[]`. -/
theorem resample_zero_dims_cex :
    resizeImageData [1, 2, 3, 4] 1 1 0 1 = .error "InvalidStateError" ∧
    resizeImageData [1, 2, 3, 4] 1 1 1 0 = .error "InvalidStateError" ∧
    resizeImageData [1, 2, 3, 4] 1 1 0 1 ≠ .ok [] := by
  refine ⟨rfl, rfl, ?_⟩
  intro h
  rw [show resizeImageData [1, 2, 3, 4] 1 1 0 1 =
    .error "InvalidStateError" from rfl] at h
  exact Except.noConfusion h

/-- C8 witness: the success case at a concrete 2×1 → 4×1 upscale (length
and the mapping at destination pixel (3, 0), channel 0) and the error
case at a concrete zero `destWidth`. -/
theorem resample_witness :
    ((1 : Nat) ≤ 4 ∧ (1 : Nat) ≤ 1 ∧ (3 : Nat) < 4 ∧ (0 : Nat) < 1 ∧ (0 : Nat) < 4) ∧
    resizeImageData [1, 2, 3, 4, 5, 6, 7, 8] 2 1 4 1 =
      .ok (resizeDestData [1, 2, 3, 4, 5, 6, 7, 8] 2 1 4 1) ∧
    (resizeDestData [1, 2, 3, 4, 5, 6, 7, 8] 2 1 4 1).length = 4 * 1 * 4 ∧
    (resizeDestData [1, 2, 3, 4, 5, 6, 7, 8] 2 1 4 1).getD ((0 * 4 + 3) * 4 + 0) 0 =
      [1, 2, 3, 4, 5, 6, 7, 8].getD ((0 * 1 / 1 * 2 + 3 * 2 / 4) * 4 + 0) 0 ∧
    resizeImageData [9] 3 3 0 5 = .error "InvalidStateError" :=
  ⟨⟨by decide, by decide, by decide, by decide, by decide⟩,
   (resample_length_and_mapping.1 [1, 2, 3, 4, 5, 6, 7, 8] 2 1 4 1 (by decide) (by decide)).1,
   (resample_length_and_mapping.1 [1, 2, 3, 4, 5, 6, 7, 8] 2 1 4 1 (by decide) (by decide)).2,
   resample_length_and_mapping.2.1 [1, 2, 3, 4, 5, 6, 7, 8] 2 1 4 1 3 0 0
     (by decide) (by decide) (by decide),
   (resample_length_and_mapping.2.2 [9] 3 3 0 5 (Or.inl rfl)).2⟩

/-- C7: `snesCrop` computes `left = max(0, ⌊(width − 256) / 2⌋)`,
`top = max(0, ⌊(height − 224) / 2⌋)`, `cropW = min(256, width − left)`,
`cropH = min(224, height − top)`; it never pads or upscales
(`cropW ≤ 256`, `cropW ≤ width`, `cropH ≤ 224`, `cropH ≤ height`);
cropping a 400×300 buffer yields exactly 256×224 while a 200×150 buffer
yields 200×150 (within the 200×150 bound); the output buffer is the
row-major copy of the source window at `(left, top)`. -/
theorem centerCrop_clamps_and_copies :
    (∀ (data : List Nat) (w h : Nat),
      (snesCrop data w h).2.1 =
        min 256 (w - (max 0 (Int.fdiv ((w : Int) - 256) 2)).toNat) ∧
      (snesCrop data w h).2.2 =
        min 224 (h - (max 0 (Int.fdiv ((h : Int) - 224) 2)).toNat)) ∧
    (∀ (data : List Nat) (w h : Nat),
      (snesCrop data w h).2.1 ≤ 256 ∧ (snesCrop data w h).2.1 ≤ w ∧
      (snesCrop data w h).2.2 ≤ 224 ∧ (snesCrop data w h).2.2 ≤ h) ∧
    (∀ data : List Nat,
      (snesCrop data 400 300).2.1 = 256 ∧ (snesCrop data 400 300).2.2 = 224) ∧
    (∀ data : List Nat,
      (snesCrop data 200 150).2.1 ≤ 200 ∧ (snesCrop data 200 150).2.2 ≤ 150) ∧
    (∀ (data : List Nat) (w h : Nat),
      (snesCrop data w h).1.length = (snesCrop data w h).2.1 * (snesCrop data w h).2.2 * 4) ∧
    (∀ (data : List Nat) (w h x y ch : Nat),
      x < (snesCrop data w h).2.1 → y < (snesCrop data w h).2.2 → ch < 4 →
      (snesCrop data w h).1.getD ((y * (snesCrop data w h).2.1 + x) * 4 + ch) 0 =
        data.getD ((((max 0 (Int.fdiv ((h : Int) - 224) 2)).toNat + y) * w +
          ((max 0 (Int.fdiv ((w : Int) - 256) 2)).toNat + x)) * 4 + ch) 0) := by
  have hpix : ∀ (data : List Nat) (w top left y x : Nat),
      (cropPixel data w top left y x).length = 4 := by
    intro data w top left y x
    rfl
  have hdims : ∀ (data : List Nat) (w h : Nat),
      (snesCrop data w h).2.1 =
          min 256 (w - (max 0 (Int.fdiv ((w : Int) - 256) 2)).toNat) ∧
        (snesCrop data w h).2.2 =
          min 224 (h - (max 0 (Int.fdiv ((h : Int) - 224) 2)).toNat) := by
    intro data w h
    constructor <;> rfl
  have hlen : ∀ (data : List Nat) (w h : Nat),
      (snesCrop data w h).1.length = (snesCrop data w h).2.1 * (snesCrop data w h).2.2 * 4 := by
    intro data w h
    simp only [snesCrop]
    rw [flatten_map_range_length _ (min 256 (w - (max 0 (Int.fdiv ((w : Int) - 256) 2)).toNat) * 4)
      _ (fun y hy => flatten_map_range_length _ 4 _ (fun x hx => hpix data w _ _ y x))]
    ring
  refine ⟨hdims, ?_, ?_, ?_, hlen, ?_⟩
  · intro data w h
    obtain ⟨h1, h2⟩ := hdims data w h
    rw [h1, h2]
    refine ⟨Nat.min_le_left _ _, le_trans (Nat.min_le_right _ _) (Nat.sub_le _ _),
      Nat.min_le_left _ _, le_trans (Nat.min_le_right _ _) (Nat.sub_le _ _)⟩
  · intro data
    obtain ⟨h1, h2⟩ := hdims data 400 300
    rw [h1, h2]
    constructor <;> decide
  · intro data
    obtain ⟨h1, h2⟩ := hdims data 200 150
    rw [h1, h2]
    constructor <;> decide
  · intro data w h x y ch hx hy hch
    simp only [snesCrop] at hx hy ⊢
    have hidx : (y * min 256 (w - (max 0 (Int.fdiv ((w : Int) - 256) 2)).toNat) + x) * 4 + ch =
        y * (min 256 (w - (max 0 (Int.fdiv ((w : Int) - 256) 2)).toNat) * 4) + (x * 4 + ch) := by
      ring
    rw [hidx, flatten_map_range_getD _ _ _
      (fun i hi => flatten_map_range_length _ 4 _ (fun j hj => hpix data w _ _ i j))
      y (x * 4 + ch) hy (by omega)]
    rw [flatten_map_range_getD _ 4 _ (fun j hj => hpix data w _ _ y j) x ch hx hch]
    simp only [cropPixel]
    interval_cases ch <;> simp [List.getD]

/-- C7 witness: the concrete 400×300 → 256×224 crop dimensions, the
200×150 clamp, and the pixel copy at destination (0, 0) channel 0 of a
concrete 1×1 buffer. -/
theorem centerCrop_witness :
    ((snesCrop ([] : List Nat) 400 300).2.1 = 256 ∧
      (snesCrop ([] : List Nat) 400 300).2.2 = 224) ∧
    ((snesCrop ([] : List Nat) 200 150).2.1 ≤ 200 ∧
      (snesCrop ([] : List Nat) 200 150).2.2 ≤ 150) ∧
    ((0 : Nat) < (snesCrop [7, 8, 9, 10] 1 1).2.1 ∧
      (0 : Nat) < (snesCrop [7, 8, 9, 10] 1 1).2.2 ∧ (0 : Nat) < 4) ∧
    (snesCrop [7, 8, 9, 10] 1 1).1.getD ((0 * (snesCrop [7, 8, 9, 10] 1 1).2.1 + 0) * 4 + 0) 0 =
      [7, 8, 9, 10].getD ((((max 0 (Int.fdiv ((1 : Int) - 224) 2)).toNat + 0) * 1 +
        ((max 0 (Int.fdiv ((1 : Int) - 256) 2)).toNat + 0)) * 4 + 0) 0 :=
  ⟨centerCrop_clamps_and_copies.2.2.1 [], centerCrop_clamps_and_copies.2.2.2.1 [],
   ⟨by decide, by decide, by decide⟩,
   centerCrop_clamps_and_copies.2.2.2.2.2 [7, 8, 9, 10] 1 1 0 0 0
     (by decide) (by decide) (by decide)⟩

lemma medianCutGo_size :
    ∀ (fuel : Nat) (pixels : List (List Nat)) (t : Nat),
      1 ≤ t → pixels.length + t + 1 ≤ fuel →
      1 ≤ (medianCutGo fuel pixels t).length ∧
        (medianCutGo fuel pixels t).length ≤ t ∧
        (t ≤ pixels.length → (medianCutGo fuel pixels t).length = t) := by
  intro fuel
  induction fuel with
  | zero => intro pixels t ht hf; omega
  | succ fuel ih =>
      intro pixels t ht hf
      simp only [medianCutGo]
      by_cases hbase : t = 1 ∨ pixels.length = 0
      · rw [if_pos hbase]
        refine ⟨by simp, by simp; omega, fun htn => by simp; omega⟩
      · rw [if_neg hbase]
        push_neg at hbase
        obtain ⟨ht1, hn0⟩ := hbase
        have key : ∀ s : List (List Nat), s.length = pixels.length →
            1 ≤ (medianCutGo fuel (s.take (s.length / 2)) (t / 2) ++
              medianCutGo fuel (s.drop (s.length / 2)) ((t + 1) / 2)).length ∧
            (medianCutGo fuel (s.take (s.length / 2)) (t / 2) ++
              medianCutGo fuel (s.drop (s.length / 2)) ((t + 1) / 2)).length ≤ t ∧
            (t ≤ pixels.length →
              (medianCutGo fuel (s.take (s.length / 2)) (t / 2) ++
                medianCutGo fuel (s.drop (s.length / 2)) ((t + 1) / 2)).length = t) := by
          intro s hs
          have hLlen : (s.take (s.length / 2)).length = pixels.length / 2 := by
            rw [List.length_take, hs]
            omega
          have hRlen : (s.drop (s.length / 2)).length =
              pixels.length - pixels.length / 2 := by
            rw [List.length_drop, hs]
          obtain ⟨hL1, hL2, hL3⟩ := ih (s.take (s.length / 2)) (t / 2)
            (by omega) (by rw [hLlen]; omega)
          obtain ⟨hR1, hR2, hR3⟩ := ih (s.drop (s.length / 2)) ((t + 1) / 2)
            (by omega) (by rw [hRlen]; omega)
          rw [List.length_append]
          refine ⟨by omega, by omega, fun htn => ?_⟩
          have h1 := hL3 (by rw [hLlen]; omega)
          have h2 := hR3 (by rw [hRlen]; omega)
          omega
        exact key _ (List.length_mergeSort _)

/-- C9: for every pixel list and every `targetCount ≥ 1` the palette
returned by `medianCut` has between 1 and `targetCount` entries; it has
exactly `targetCount` entries whenever the pixel list has at least
`targetCount` pixels; and on `n ≥ 1` copies of a single color with
`targetCount = 1` it returns exactly that color. -/
theorem medianCut_palette_size :
    (∀ (pixels : List (List Nat)) (t : Nat), 1 ≤ t →
      1 ≤ (medianCut pixels t).length ∧ (medianCut pixels t).length ≤ t) ∧
    (∀ (pixels : List (List Nat)) (t : Nat), 1 ≤ t → t ≤ pixels.length →
      (medianCut pixels t).length = t) ∧
    (∀ (r g b n : Nat), 1 ≤ n →
      medianCut (List.replicate n [r, g, b]) 1 = [[r, g, b]]) := by
  refine ⟨?_, ?_, ?_⟩
  · intro pixels t ht
    obtain ⟨h1, h2, -⟩ := medianCutGo_size (pixels.length + t + 1) pixels t ht (le_refl _)
    exact ⟨h1, h2⟩
  · intro pixels t ht htn
    obtain ⟨-, -, h3⟩ := medianCutGo_size (pixels.length + t + 1) pixels t ht (le_refl _)
    exact h3 htn
  · intro r g b n hn
    unfold medianCut
    rw [List.length_replicate]
    show medianCutGo (n + 1 + 1) _ 1 = _
    rw [medianCutGo]
    rw [if_pos (Or.inl rfl)]
    have hone : averagePixel (List.replicate n [r, g, b]) = [r, g, b] := by
      unfold averagePixel
      rw [if_neg (by rw [List.length_replicate]; omega)]
      have hval : ∀ (ch v : Nat), (∀ p : List Nat, p = [r, g, b] → p.getD ch 0 = v) →
          (jsRound (((((List.replicate n ([r, g, b] : List Nat)).map
              (fun p => p.getD ch 0)).sum : Nat) : ℚ) /
            (((List.replicate n ([r, g, b] : List Nat)).length : Nat) : ℚ))).toNat = v := by
        intro ch v hv
        have hmap : (List.replicate n ([r, g, b] : List Nat)).map (fun p => p.getD ch 0) =
            List.replicate n v := by
          rw [List.map_replicate, hv [r, g, b] rfl]
        rw [hmap, List.sum_replicate, smul_eq_mul, List.length_replicate]
        have hnq : ((n : ℚ)) ≠ 0 := Nat.cast_ne_zero.mpr (by omega)
        have hdiv : (((n * v : ℕ) : ℚ)) / ((n : ℕ) : ℚ) = (v : ℚ) := by
          push_cast
          rw [mul_comm, mul_div_assoc, div_self hnq, mul_one]
        rw [hdiv]
        unfold jsRound
        have hfl : Int.floor ((v : ℚ) + 1 / 2) = (v : Int) := by
          rw [Int.floor_eq_iff]
          constructor
          · push_cast
            linarith [show (0 : ℚ) ≤ 1 / 2 by norm_num]
          · push_cast
            linarith [show (1 : ℚ) / 2 < 1 by norm_num]
        rw [hfl]
        simp
      rw [hval 0 r (fun p hp => by rw [hp]; rfl),
        hval 1 g (fun p hp => by rw [hp]; rfl),
        hval 2 b (fun p hp => by rw [hp]; rfl)]
    rw [hone]

/-- C9 witness: the bounds at a concrete 3-pixel list with target 2, the
exact count, and the single-color case at 3 copies of (9, 9, 9). -/
theorem medianCut_palette_size_witness :
    (1 ≤ (medianCut [[1, 2, 3], [4, 5, 6], [7, 8, 9]] 2).length ∧
      (medianCut [[1, 2, 3], [4, 5, 6], [7, 8, 9]] 2).length ≤ 2) ∧
    (medianCut [[1, 2, 3], [4, 5, 6], [7, 8, 9]] 2).length = 2 ∧
    medianCut (List.replicate 3 [9, 9, 9]) 1 = [[9, 9, 9]] :=
  ⟨medianCut_palette_size.1 [[1, 2, 3], [4, 5, 6], [7, 8, 9]] 2 (by decide),
   medianCut_palette_size.2.1 [[1, 2, 3], [4, 5, 6], [7, 8, 9]] 2 (by decide) (by decide),
   medianCut_palette_size.2.2 9 9 9 3 (by decide)⟩

/-- C1 (amended): the color-reduction stage of `processImage` is guarded
by `params.colors < 256`.  When `colors < 256` it applies
`quantizeColors` if `quantize` is true and `posterizeColors` otherwise;
when `colors = 256` (or larger) the stage is skipped and the buffer (and
dimensions) pass through unchanged.  The last conjunct records the fixed
five-stage order of the pipeline. -/
theorem colorReduction_stage_guard :
    (∀ (st : List Nat × Nat × Nat) (params : TransformParameters),
      params.colors < 256 → params.quantize = true →
        pipelineStage2 st params = (quantizeColors st.1 params.colors, st.2.1, st.2.2)) ∧
    (∀ (st : List Nat × Nat × Nat) (params : TransformParameters),
      params.colors < 256 → params.quantize = false →
        pipelineStage2 st params = (posterizeColors st.1 params.colors, st.2.1, st.2.2)) ∧
    (∀ (st : List Nat × Nat × Nat) (params : TransformParameters),
      256 ≤ params.colors → pipelineStage2 st params = st) ∧
    (∀ (data : List Nat) (w h : Nat) (params : TransformParameters),
      processImage data w h params =
        pipelineStage5 (pipelineStage4 (pipelineStage3 (pipelineStage2
          (pipelineStage1 (data, w, h) params) params) params) params) params) := by
  refine ⟨?_, ?_, ?_, fun data w h params => rfl⟩
  · intro st params hc hq
    simp [pipelineStage2, hc, hq]
  · intro st params hc hq
    simp [pipelineStage2, hc, hq]
  · intro st params hc
    simp [pipelineStage2, Nat.not_lt.mpr hc]

/-- C1 counterexample: with the valid parameter set
`{scale 1, colors 256, quantize false, rgb555 false, snescrop false,
rescale false}` the claim predicts stage 2 posterizes (level 8), but the
pipeline skips the stage: on the one-pixel buffer `[1, 0, 0, 255]` the
pipeline output is the unchanged input, while `posterizeColors` at
`colors = 256` would have produced `[0, 0, 0, 255]`. -/
theorem colorReduction_stage_cex :
    (4 ≤ (TransformParameters.mk 1 256 false false false false).colors ∧
      (TransformParameters.mk 1 256 false false false false).colors ≤ 256 ∧
      1 ≤ (TransformParameters.mk 1 256 false false false false).scale) ∧
    processImage [1, 0, 0, 255] 1 1 (TransformParameters.mk 1 256 false false false false) =
      ([1, 0, 0, 255], 1, 1) ∧
    posterizeColors [1, 0, 0, 255]
        (TransformParameters.mk 1 256 false false false false).colors =
      [0, 0, 0, 255] ∧
    ([1, 0, 0, 255] : List Nat) ≠ [0, 0, 0, 255] := by
  refine ⟨⟨by decide, by decide, by decide⟩, by decide, ?_, by decide⟩
  show posterizeColors [1, 0, 0, 255] 256 = [0, 0, 0, 255]
  unfold posterizeColors calculatePosterizeLevels
  norm_num
  unfold posterizeLoop posterizeByte clampByte jsRound
  norm_num
  rfl

/-- C1 witness: the stage guard applied at concrete states and parameter
records (posterize at 16 colors, quantize at 16 colors, skip at 256). -/
theorem colorReduction_stage_guard_witness :
    pipelineStage2 ([1, 0, 0, 255], 1, 1) (TransformParameters.mk 1 16 false false false false) =
      (posterizeColors [1, 0, 0, 255] 16, 1, 1) ∧
    pipelineStage2 ([1, 0, 0, 255], 1, 1) (TransformParameters.mk 1 16 true false false false) =
      (quantizeColors [1, 0, 0, 255] 16, 1, 1) ∧
    pipelineStage2 ([1, 0, 0, 255], 1, 1) (TransformParameters.mk 1 256 false false false false) =
      ([1, 0, 0, 255], 1, 1) :=
  ⟨colorReduction_stage_guard.2.1 ([1, 0, 0, 255], 1, 1)
      (TransformParameters.mk 1 16 false false false false) (by decide) rfl,
   colorReduction_stage_guard.1 ([1, 0, 0, 255], 1, 1)
      (TransformParameters.mk 1 16 true false false false) (by decide) rfl,
   colorReduction_stage_guard.2.2.1 ([1, 0, 0, 255], 1, 1)
      (TransformParameters.mk 1 256 false false false false) (by decide)⟩

/-! ## Stable-Diffusion parameter parsing (main-old.js lines 405-685)

JS strings are lists of characters; `indexOf`, `substring`, `trim`,
`split`, `startsWith`, `includes`, `replace` and `toLowerCase` are
modelled directly; the two regular expressions of the positive-prompt
path (`/<lora:([^:>]+):[^>]*>/g` and `/<lora:[^>]+>/g`) and the
`/(\d+)x(\d+)/` size pattern become explicit scanners with the same
match semantics. -/

/-- `haystack.indexOf(needle)` on character lists: index of the first
occurrence, `none` for JS `-1`. -/
def subIndex (pat : List Char) : List Char → Option Nat
  | [] => if pat.isPrefixOf ([] : List Char) then some 0 else none
  | c :: t =>
    if pat.isPrefixOf (c :: t) then some 0
    else (subIndex pat t).map (· + 1)

/-- JS `String.prototype.trim`. -/
def jsTrim (s : List Char) : List Char :=
  ((s.dropWhile Char.isWhitespace).reverse.dropWhile Char.isWhitespace).reverse

/-- JS `String.prototype.replace` with a plain-string pattern: replace the
first occurrence only. -/
def replaceFirst (pat repl s : List Char) : List Char :=
  match subIndex pat s with
  | none => s
  | some i => s.take i ++ repl ++ s.drop (i + pat.length)

/-- `replace(/\s+/g, " ")`: collapse every maximal whitespace run into a
single space (the flag tracks whether the previous character was
whitespace). -/
def collapseWsGo : Bool → List Char → List Char
  | _, [] => []
  | prevWs, c :: t =>
    if c.isWhitespace then
      if prevWs then collapseWsGo true t else ' ' :: collapseWsGo true t
    else c :: collapseWsGo false t

def collapseWs (s : List Char) : List Char := collapseWsGo false s

/-- A parsed `<lora:NAME:WEIGHT>` tag (`{name, weight}`, with the `hash`
field that `matchLoraHashes` may add later). -/
structure LoraRef where
  name : List Char
  weight : List Char
  hash : Option (List Char) := none
  deriving Repr, DecidableEq

/-- The matches of `/<lora:([^:>]+):[^>]*>/g`: at each position where
`<lora:` occurs, a non-empty run without `:`/`>` (the name), then `:`,
then a run without `>` (the weight), then `>`. -/
def findLoraTagsGo : Nat → List Char → List LoraRef
  | 0, _ => []
  | _, [] => []
  | fuel + 1, c :: t =>
    let s := c :: t
    if ("<lora:".toList).isPrefixOf s then
      let after := s.drop 6
      let name := after.takeWhile (fun ch => decide (ch ≠ ':') && decide (ch ≠ '>'))
      let rest₁ := after.drop name.length
      match rest₁ with
      | ':' :: rest₂ =>
        if name.isEmpty then findLoraTagsGo fuel t
        else
          let weight := rest₂.takeWhile (fun ch => decide (ch ≠ '>'))
          match rest₂.drop weight.length with
          | '>' :: rest₃ =>
            { name := name, weight := weight } :: findLoraTagsGo fuel rest₃
          | _ => findLoraTagsGo fuel t
      | _ => findLoraTagsGo fuel t
    else findLoraTagsGo fuel t

def findLoraTags (s : List Char) : List LoraRef := findLoraTagsGo s.length s

/-- `replace(/<lora:[^>]+>/g, "")`: drop every `<lora:` … `>` span with at
least one character between. -/
def stripLoraTagsGo : Nat → List Char → List Char
  | 0, s => s
  | _, [] => []
  | fuel + 1, c :: t =>
    let s := c :: t
    if ("<lora:".toList).isPrefixOf s then
      let after := s.drop 6
      let inner := after.takeWhile (fun ch => decide (ch ≠ '>'))
      if inner.isEmpty then c :: stripLoraTagsGo fuel t
      else
        match after.drop inner.length with
        | '>' :: rest => stripLoraTagsGo fuel rest
        | _ => c :: stripLoraTagsGo fuel t
    else c :: stripLoraTagsGo fuel t

def stripLoraTags (s : List Char) : List Char := stripLoraTagsGo s.length s

/-- `smartSplit(str, delimiter)`: split on the delimiter, but not inside
quoted substrings or `\x7b \x7d` / `[ ]` nesting.  Mid-string parts are
pushed trimmed (even when empty); the final part only when non-empty
after trimming.  `quoteChar = ""` is `none`. -/
def smartSplitGo (delim : Char) :
    List Char → List Char → Bool → Option Char → Int → List (List Char)
  | [], current, _, _, _ =>
    if (jsTrim current).isEmpty then [] else [jsTrim current]
  | c :: rest, current, inQuotes, quoteChar, depth =>
    let st :=
      if (c = '"' ∨ c = '\'') ∧ ¬inQuotes then (true, some c, depth)
      else if some c = quoteChar ∧ inQuotes then (false, none, depth)
      else if c = '\x7b' ∨ c = '[' then (inQuotes, quoteChar, depth + 1)
      else if c = '\x7d' ∨ c = ']' then (inQuotes, quoteChar, depth - 1)
      else (inQuotes, quoteChar, depth)
    if c = delim ∧ ¬st.1 ∧ st.2.2 = 0 then
      jsTrim current :: smartSplitGo delim rest [] st.1 st.2.1 st.2.2
    else
      smartSplitGo delim rest (current ++ [c]) st.1 st.2.1 st.2.2

def smartSplit (s : List Char) (delim : Char) : List (List Char) :=
  smartSplitGo delim s [] false none 0

/-- `parseInt` on an all-digit match. -/
def parseDigits (s : List Char) : Nat :=
  s.foldl (fun n c => n * 10 + (c.toNat - 48)) 0

/-- The first match of `/(\d+)x(\d+)/`: a maximal digit run, `x`, then a
digit run. -/
def findSizeMatch : List Char → Option (List Char × List Char)
  | [] => none
  | c :: t =>
    let s := c :: t
    let d1 := s.takeWhile Char.isDigit
    if d1.isEmpty then findSizeMatch t
    else
      match s.drop d1.length with
      | 'x' :: rest =>
        let d2 := rest.takeWhile Char.isDigit
        if d2.isEmpty then findSizeMatch t else some (d1, d2)
      | _ => findSizeMatch t

/-- `camelCase(str)`: each regex match of `/(?:^\w|[A-Z]|\b\w)/g` (the
first character if a word character, any capital, any word character
following a non-word character) is lower-cased at index 0 and upper-cased
elsewhere, then all whitespace is removed. -/
def camelCaseGo (first : Bool) (prevWord : Bool) : List Char → List Char
  | [] => []
  | c :: t =>
    let isWord := c.isAlphanum ∨ c = '_'
    let c' :=
      if first ∧ isWord then c.toLower
      else if c.isUpper then c
      else if isWord ∧ ¬prevWord then c.toUpper
      else c
    c' :: camelCaseGo false isWord t

def camelCase (s : List Char) : List Char :=
  (camelCaseGo true false s).filter (fun c => !c.isWhitespace)

/-- `parseLoraHashes(hashStr)`: strip surrounding quotes, smart-split on
commas, and split each part at its last colon. -/
def parseLoraHashes (hashStr : List Char) : List (List Char × List Char) :=
  let cleanStr :=
    let s₁ := match hashStr with
      | '"' :: t => t
      | '\'' :: t => t
      | s => s
    match s₁.reverse with
    | '"' :: t => t.reverse
    | '\'' :: t => t.reverse
    | _ => s₁
  (smartSplit cleanStr ',').foldl (fun hashes part =>
    match (part.reverse.findIdx? (fun c => c = ':')).map
        (fun j => part.length - 1 - j) with
    | none => hashes
    | some colonIndex =>
      hashes ++ [(jsTrim (part.take colonIndex), jsTrim (part.drop (colonIndex + 1)))])
    []

/-- The structured record `parseStableDiffusionParameters` accumulates
(one optional field per named key of `parseParameterLine`; unrecognized
keys go to `others` camel-cased, in insertion order). -/
structure ParsedParameters where
  positivePrompt : Option (List Char) := none
  negativePrompt : Option (List Char) := none
  loras : Option (List LoraRef) := none
  steps : Option (List Char) := none
  sampler : Option (List Char) := none
  scheduleType : Option (List Char) := none
  cfgScale : Option (List Char) := none
  seed : Option (List Char) := none
  size : Option (List Char) := none
  width : Option Nat := none
  height : Option Nat := none
  modelHash : Option (List Char) := none
  model : Option (List Char) := none
  vaeHash : Option (List Char) := none
  vae : Option (List Char) := none
  loraHashes : Option (List (List Char × List Char)) := none
  version : Option (List Char) := none
  others : List (List Char × List Char) := []
  deriving Repr, DecidableEq

/-- `parseParameterLine(line, parsed)`: smart-split on commas, split each
part at its first colon, dispatch on the lower-cased key. -/
def parseParameterLine (line : List Char) (parsed : ParsedParameters) :
    ParsedParameters :=
  (smartSplit line ',').foldl (fun parsed part =>
    match part.findIdx? (fun c => c = ':') with
    | none => parsed
    | some colonIndex =>
      let key := jsTrim (part.take colonIndex)
      let value := jsTrim (part.drop (colonIndex + 1))
      let keyLower := key.map Char.toLower
      if keyLower = "steps".toList then { parsed with steps := some value }
      else if keyLower = "sampler".toList then { parsed with sampler := some value }
      else if keyLower = "schedule type".toList then
        { parsed with scheduleType := some value }
      else if keyLower = "cfg scale".toList then { parsed with cfgScale := some value }
      else if keyLower = "seed".toList then { parsed with seed := some value }
      else if keyLower = "size".toList then
        match findSizeMatch value with
        | some (d1, d2) =>
          { parsed with size := some value, width := some (parseDigits d1),
                        height := some (parseDigits d2) }
        | none => { parsed with size := some value }
      else if keyLower = "model hash".toList then { parsed with modelHash := some value }
      else if keyLower = "model".toList then { parsed with model := some value }
      else if keyLower = "vae hash".toList then { parsed with vaeHash := some value }
      else if keyLower = "vae".toList then { parsed with vae := some value }
      else if keyLower = "lora hashes".toList then
        { parsed with loraHashes := some (parseLoraHashes value) }
      else if keyLower = "version".toList then { parsed with version := some value }
      else { parsed with others := parsed.others ++ [(camelCase key, value)] })
    parsed

/-- The settings-line heuristic: contains `"Steps:"`, `"Sampler:"`, or
both a colon and a comma. -/
def isSettingsLine (line : List Char) : Bool :=
  (subIndex "Steps:".toList line).isSome ||
    (subIndex "Sampler:".toList line).isSome ||
    ((subIndex ":".toList line).isSome && (subIndex ",".toList line).isSome)

/-- `matchLoraHashes(parsed)`: attach `hash` to each lora whose name
appears in `loraHashes`. -/
def matchLoraHashes (parsed : ParsedParameters) : ParsedParameters :=
  match parsed.loras, parsed.loraHashes with
  | some loras, some hashes =>
    { parsed with loras := some (loras.map (fun lora =>
        match hashes.find? (fun kv => kv.1 = lora.name) with
        | some kv => { lora with hash := some kv.2 }
        | none => lora)) }
  | _, _ => parsed

/-- The negative-prompt/settings loop over the remaining lines. -/
def processRemainingLines (parsed : ParsedParameters) :
    List (List Char) → Bool → List (List Char) → ParsedParameters × List (List Char)
  | [], _, negativePromptLines => (parsed, negativePromptLines)
  | rawLine :: rest, inNegativePrompt, negativePromptLines =>
    let line := jsTrim rawLine
    if line.isEmpty then
      processRemainingLines parsed rest inNegativePrompt negativePromptLines
    else if ("Negative prompt:".toList).isPrefixOf line then
      let negativeStart := jsTrim (replaceFirst "Negative prompt:".toList [] line)
      if negativeStart.isEmpty then
        processRemainingLines parsed rest true negativePromptLines
      else
        processRemainingLines parsed rest true (negativePromptLines ++ [negativeStart])
    else if isSettingsLine line then
      processRemainingLines (parseParameterLine line parsed) rest false negativePromptLines
    else if inNegativePrompt then
      processRemainingLines parsed rest inNegativePrompt (negativePromptLines ++ [line])
    else
      processRemainingLines parsed rest inNegativePrompt negativePromptLines

/-- `parseStableDiffusionParameters(paramText)` from main-old.js: split at
`"Negative prompt:"` (or at the first settings line when absent), extract
lora tags and the cleaned positive prompt, walk the remaining lines for
the negative prompt and the comma-separated settings, and post-process
lora hashes.  Nothing in the body throws, so the `catch` is unreachable. -/
def parseStableDiffusionParameters (paramText : List Char) : ParsedParameters :=
  let split :=
    match subIndex "Negative prompt:".toList paramText with
    | some negativePromptIndex =>
      (jsTrim (paramText.take negativePromptIndex), paramText.drop negativePromptIndex)
    | none =>
      let lines := paramText.splitOn '\n'
      match lines.findIdx? isSettingsLine with
      | some parameterLineIndex =>
        (jsTrim (((lines.take parameterLineIndex).intersperse ['\n']).flatten),
          ((lines.drop parameterLineIndex).intersperse ['\n']).flatten)
      | none => (jsTrim paramText, [])
  let positivePromptText := split.1
  let remainingText := split.2
  let parsed₁ : ParsedParameters :=
    if positivePromptText.isEmpty then {}
    else
      let tags := findLoraTags positivePromptText
      let withLoras : ParsedParameters :=
        if tags.isEmpty then {} else { loras := some tags }
      let cleanPositivePrompt := jsTrim (collapseWs (stripLoraTags positivePromptText))
      if cleanPositivePrompt.isEmpty then withLoras
      else { withLoras with positivePrompt := some cleanPositivePrompt }
  let parsed₂ :=
    if remainingText.isEmpty then parsed₁
    else
      let st := processRemainingLines parsed₁ (remainingText.splitOn '\n') false []
      if st.2.isEmpty then st.1
      else
        let np := jsTrim (collapseWs ((st.2.intersperse [' ']).flatten))
        { st.1 with negativePrompt := some np }
  if parsed₂.loraHashes.isSome ∧ parsed₂.loras.isSome then matchLoraHashes parsed₂
  else parsed₂

/-- C10: on the A1111-style text whose settings line is
`"Steps: 30, Sampler: DPM++ 3M, CFG scale: 6.5, Seed: 2921279476, Size: 888x1184"`
preceded by a `"Negative prompt:"` line, `parseStableDiffusionParameters`
yields steps `"30"`, sampler `"DPM++ 3M"`, cfgScale `"6.5"`, seed
`"2921279476"`, size `"888x1184"`, and the numeric width 888 and height
1184 derived from the `NxM` pattern in the size value. -/
theorem parseGenerationParameters_example :
    (parseStableDiffusionParameters ("masterpiece, best quality\nNegative prompt: ugly\nSteps: 30, Sampler: DPM++ 3M, CFG scale: 6.5, Seed: 2921279476, Size: 888x1184").toList).steps = some "30".toList ∧
    (parseStableDiffusionParameters ("masterpiece, best quality\nNegative prompt: ugly\nSteps: 30, Sampler: DPM++ 3M, CFG scale: 6.5, Seed: 2921279476, Size: 888x1184").toList).sampler = some "DPM++ 3M".toList ∧
    (parseStableDiffusionParameters ("masterpiece, best quality\nNegative prompt: ugly\nSteps: 30, Sampler: DPM++ 3M, CFG scale: 6.5, Seed: 2921279476, Size: 888x1184").toList).cfgScale = some "6.5".toList ∧
    (parseStableDiffusionParameters ("masterpiece, best quality\nNegative prompt: ugly\nSteps: 30, Sampler: DPM++ 3M, CFG scale: 6.5, Seed: 2921279476, Size: 888x1184").toList).seed = some "2921279476".toList ∧
    (parseStableDiffusionParameters ("masterpiece, best quality\nNegative prompt: ugly\nSteps: 30, Sampler: DPM++ 3M, CFG scale: 6.5, Seed: 2921279476, Size: 888x1184").toList).size = some "888x1184".toList ∧
    (parseStableDiffusionParameters ("masterpiece, best quality\nNegative prompt: ugly\nSteps: 30, Sampler: DPM++ 3M, CFG scale: 6.5, Seed: 2921279476, Size: 888x1184").toList).width = some 888 ∧
    (parseStableDiffusionParameters ("masterpiece, best quality\nNegative prompt: ugly\nSteps: 30, Sampler: DPM++ 3M, CFG scale: 6.5, Seed: 2921279476, Size: 888x1184").toList).height = some 1184 := by
  refine ⟨by decide, by decide, by decide, by decide, by decide, by decide, by decide⟩

end Pixelate
